import Mathlib

/-!
Verification development for the Monkey-with-extensions interpreter
(lexer, Pratt parser, tree-walking evaluator with classes and modules).

The Go sources are shallowly embedded below:
* machine integers are `Int` with explicit wrap-around at 2^64 where Go's
  `int64` can overflow;
* `float64` values reachable in the programs under study are exact, so they
  are carried exactly, as the integer `value * 2^1074` (every finite
  double is an integral multiple of `2^-1074`);
  conversions from integers and decimal literals are rounded to 53 bits of
  precision exactly as the hardware does (round to nearest, ties to even);
  float arithmetic (`+ - * /`), whose rounding the embedding does not model,
  yields the explicit `undet` outcome — no theorem below depends on it;
* Go interface values that may be `nil` are `Option Object`;
* Go runtime panics (failed type assertions, out-of-range indexing of
  argument slices, field access through nil pointers) are the explicit
  `panicked` outcome;
* the mutable `Environment` graph is a two-level heap: a list of stores and
  a list of environment records holding a store index and an optional outer
  environment index, so `Closed` (which copies the Go struct but shares the
  underlying map) is modelled faithfully by sharing the store index;
* iteration over Go maps is modelled by association lists in insertion
  order; all programs studied below make at most one insertion per literal,
  so map iteration order does not matter for them;
* potentially diverging recursion (the evaluator, the Pratt parser loops,
  environment-chain walks) is fuelled; `none` is fuel exhaustion.
-/

set_option maxRecDepth 5000
set_option exponentiation.threshold 5000

namespace Monkey

/-! ## Machine arithmetic helpers -/

/-- Wrap an unbounded integer to Go `int64` two's-complement semantics. -/
def i64 (x : Int) : Int :=
  (x + ((2 ^ 63 : Nat) : Int)) % ((2 ^ 64 : Nat) : Int) - ((2 ^ 63 : Nat) : Int)

/-- Floor of the base-2 logarithm, by fuelled halving (kernel-reducible,
unlike `Nat.log2`); the fuel `n` always suffices. -/
def natLog2Aux : Nat → Nat → Nat
  | 0, _ => 0
  | fuel + 1, n => if 2 ≤ n then natLog2Aux fuel (n / 2) + 1 else 0

def natLog2 (n : Nat) : Nat := natLog2Aux n n

/-- Go's `int64 → float64` conversion: round to nearest even at 53
significant bits.  The result of the conversion is always an integral
value for `int64` inputs, so it is returned as `Int`. -/
def roundIntToF64 (x : Int) : Int :=
  let a := x.natAbs
  if a ≤ 2 ^ 53 then x
  else
    let k := natLog2 a - 52
    let q := a / 2 ^ k
    let r := a % 2 ^ k
    let half := 2 ^ (k - 1)
    let m := if r < half then q else if half < r then q + 1
             else if q % 2 = 0 then q else q + 1
    if x < 0 then -((m * 2 ^ k : Nat) : Int) else ((m * 2 ^ k : Nat) : Int)

/-- 64-bit FNV-1a over a byte sequence (`hash/fnv`, `fnv.New64a`). -/
def fnv1a64 (bytes : List Nat) : Nat :=
  bytes.foldl (fun h b => ((h ^^^ b) * 1099511628211) % 2 ^ 64)
    14695981039346656037

/-- UTF-8 encoding of one character, as byte values. -/
def utf8Bytes (c : Char) : List Nat :=
  let n := c.toNat
  if n < 0x80 then [n]
  else if n < 0x800 then [0xC0 + n / 0x40, 0x80 + n % 0x40]
  else if n < 0x10000 then
    [0xE0 + n / 0x1000, 0x80 + n / 0x40 % 0x40, 0x80 + n % 0x40]
  else
    [0xF0 + n / 0x40000, 0x80 + n / 0x1000 % 0x40,
     0x80 + n / 0x40 % 0x40, 0x80 + n % 0x40]

/-- The bytes of a string, as Go's `[]byte(s)` produces them. -/
def strBytes (s : String) : List Nat :=
  s.data.foldr (fun c acc => utf8Bytes c ++ acc) []

/-- Decimal rendering of a natural number (helper for `Inspect`). -/
def natRepr (n : Nat) : String :=
  Nat.repr n

/-- Decimal rendering of an integer (`fmt.Sprintf("%d", v)`). -/
def intRepr (v : Int) : String :=
  if v < 0 then "-" ++ natRepr v.natAbs else natRepr v.natAbs

/-! ### Exact `float64` values as scaled integers

Every finite double is an integral multiple of `2^-1074`, so a `float64`
value is carried as the integer `value * 2^1074` (type synonym `GoF64`).
This keeps all float values exact and every operation on them pure
integer arithmetic. -/

/-- The scaled representation of 1.0. -/
def oneF64 : Int := ((2 ^ 1074 : Nat) : Int)

/-- An exactly-representable integer as a scaled `float64`. -/
def intToF64 (x : Int) : Int := roundIntToF64 x * ((2 ^ 1074 : Nat) : Int)

/-- Round `N / D` (with `D > 0`) to an integer, ties to even. -/
def divRoundHalfEven (N D : Int) : Int :=
  let f := Int.ediv N D
  let r := Int.emod N D
  if 2 * r < D then f else if D < 2 * r then f + 1
  else if f % 2 = 0 then f else f + 1

/-! ### Correctly rounded decimal-to-double conversion
(`strconv.ParseFloat(s, 64)` on the digit strings the lexer produces). -/

/-- Floor of the base-2 logarithm of `m / 10^k` for `m ≥ 1`.
Uses `log2 (q * 2^t) - t` with `t` large enough that the scaled value is
at least 1; flooring the scaled value does not change its `log2`. -/
def floorLog2Dec (m k : Nat) : Int :=
  (natLog2 (m * 2 ^ (4 * k) / 10 ^ k) : Int) - 4 * k

/-- The scaled value of the `float64` nearest to `m / 10^k`; `none` on
overflow (where `strconv.ParseFloat` reports a range error and the
parser rejects the literal).  The value is rounded to the granule
`2^(e-52)` (clamped to the denormal granule `2^-1074`), ties to even. -/
def decToF64 (m k : Nat) : Option Int :=
  if m = 0 then some 0
  else
    let e := floorLog2Dec m k
    let g := max (e - 52) (-1074)
    let N : Int := ((m * 2 ^ Int.toNat (-g) : Nat) : Int)
    let D : Int := ((10 ^ k * 2 ^ Int.toNat g : Nat) : Int)
    let scaled := divRoundHalfEven N D * ((2 ^ Int.toNat (g + 1074) : Nat) : Int)
    if ((2 ^ (1024 + 1074) : Nat) : Int) ≤ scaled then none else some scaled

/-- `strconv.ParseInt(lit, 0, 64)` on the digit strings the lexer
produces: base 0 means a literal with a leading `0` and more digits is
read in octal (digits 8 and 9 are then illegal); the value must fit in
`int64`. -/
def goParseIntBase0 (s : String) : Option Int :=
  match s.data with
  | [] => none
  | c0 :: rest =>
    let digits := c0 :: rest
    let base : Nat := if c0 = '0' ∧ rest ≠ [] then 8 else 10
    let step : Option Nat → Char → Option Nat := fun acc c =>
      match acc with
      | none => none
      | some a =>
        let d := c.toNat - '0'.toNat
        if '0' ≤ c ∧ c ≤ '9' ∧ d < base then some (a * base + d) else none
    match digits.foldl step (some 0) with
    | none => none
    | some v => if (v : Int) ≤ 2 ^ 63 - 1 then some (v : Int) else none

/-- Split a lexer FLOAT literal `digits [. digits]` into mantissa and
number of fractional digits. -/
def splitFloatLit (s : String) : Option (Nat × Nat) :=
  let step : Option (Nat × Option Nat) → Char → Option (Nat × Option Nat) :=
    fun acc c =>
      match acc with
      | none => none
      | some (m, frac) =>
        if c = '.' then
          match frac with
          | none => some (m, some 0)
          | some _ => none
        else if '0' ≤ c ∧ c ≤ '9' then
          let d := c.toNat - '0'.toNat
          some (m * 10 + d, frac.map (· + 1))
        else none
  match s.data.foldl step (some (0, none)) with
  | none => none
  | some (m, frac) => some (m, frac.getD 0)

/-- `strconv.ParseFloat(lit, 64)` on lexer FLOAT literals: the exact value
of the correctly rounded double. -/
def goParseFloat (s : String) : Option Int :=
  match splitFloatLit s with
  | none => none
  | some (m, k) => decToF64 m k

/-! ## Tokens (`token` package)

The `token` package in the snapshot under `src/token` predates the
current lexer/parser (it lacks `WHILE`, `AS` and the position fields the
lexer sets).  Token kinds present there are taken verbatim; `WHILE` and
`AS` are modelled from the spec keyword list (`while`, `as`). -/

structure Token where
  type : String
  literal : String
  lineNo : Int
  charNo : Int
  deriving Repr, DecidableEq

namespace TokenType

def ILLEGAL := "ILLEGAL"
def EOF := "EOF"
def IDENT := "IDENT"
def INT := "INT"
def STRING := "STRING"
def ASSIGN := "="
def PLUS := "+"
def MINUS := "-"
def BANG := "!"
def ASTERISK := "*"
def SLASH := "/"
def LT := "<"
def GT := ">"
def LTE := "<="
def GTE := ">="
def EQ := "=="
def NOT_EQ := "!="
def DOT := "."
def COMMA := ","
def SEMICOLON := ";"
def LPAREN := "("
def RPAREN := ")"
def LBRACE := "\x7b"
def RBRACE := "\x7d"
def LBRACKET := "["
def RBRACKET := "]"
def COLON := ":"
def FUNCTION := "FUNCTION"
def LET := "LET"
def TRUE := "TRUE"
def FALSE := "FALSE"
def IF := "IF"
def ELSE := "ELSE"
def RETURN := "RETURN"
def IMPORT := "IMPORT"
def CLASS := "CLASS"
def FLOAT := "FLOAT"
/-- Modelled from the spec: keyword token for `while` (current `token.go`
is absent from the snapshot). -/
def WHILE := "WHILE"
/-- Modelled from the spec: keyword token for `as`. -/
def AS := "AS"

end TokenType

/-- The keyword table (`token.keywords`); `while`/`as` modelled from the
spec's keyword list. -/
def keywords : String → Option String := fun s =>
  if s = "fn" then some TokenType.FUNCTION
  else if s = "let" then some TokenType.LET
  else if s = "true" then some TokenType.TRUE
  else if s = "false" then some TokenType.FALSE
  else if s = "if" then some TokenType.IF
  else if s = "else" then some TokenType.ELSE
  else if s = "return" then some TokenType.RETURN
  else if s = "class" then some TokenType.CLASS
  else if s = "import" then some TokenType.IMPORT
  else if s = "while" then some TokenType.WHILE
  else if s = "as" then some TokenType.AS
  else none

/-- `token.LookupIdent`. -/
def lookupIdent (s : String) : String :=
  match keywords s with
  | some t => t
  | none => TokenType.IDENT

/-! ## Lexer (`lexer/lexer.go`)

The input is held as a list of characters (the sources under study are
ASCII, where Go's byte-oriented scanning and character-oriented scanning
agree); the NUL character stands for Go's zero byte at end of input. -/

structure Lexer where
  input : List Char
  lineNo : Int
  charNo : Int
  position : Nat
  readPosition : Nat
  ch : Char
  deriving Repr

/-- `Lexer.readChar`. -/
def lexReadChar (l : Lexer) : Lexer :=
  let (ch, charNo) :=
    if l.readPosition ≥ l.input.length then (Char.ofNat 0, l.charNo)
    else (l.input.getD l.readPosition (Char.ofNat 0), l.charNo + 1)
  { l with ch := ch, charNo := charNo, position := l.readPosition,
           readPosition := l.readPosition + 1 }

/-- `lexer.New`. -/
def lexNew (input : List Char) : Lexer :=
  lexReadChar { input := input, lineNo := 0, charNo := -1, position := 0,
                readPosition := 0, ch := Char.ofNat 0 }

/-- `Lexer.peekChar`. -/
def lexPeekChar (l : Lexer) : Char :=
  if l.readPosition ≥ l.input.length then Char.ofNat 0
  else l.input.getD l.readPosition (Char.ofNat 0)

def isLetterCh (c : Char) : Bool :=
  ('a' ≤ c ∧ c ≤ 'z') ∨ ('A' ≤ c ∧ c ≤ 'Z') ∨ c = '_'

def isDigitCh (c : Char) : Bool :=
  '0' ≤ c ∧ c ≤ '9'

/-- `Lexer.skipWhitespace` (fuelled loop). -/
def lexSkipWs : Nat → Lexer → Lexer
  | 0, l => l
  | fuel + 1, l =>
    if l.ch = ' ' ∨ l.ch = '\t' ∨ l.ch = '\n' ∨ l.ch = '\r' then
      let l := if l.ch = '\n' then { l with lineNo := l.lineNo + 1, charNo := 0 } else l
      lexSkipWs fuel (lexReadChar l)
    else l

/-- `Lexer.readIdentifier` (fuelled loop); returns the spelling. -/
def lexReadIdent : Nat → Lexer → List Char → List Char × Lexer
  | 0, l, acc => (acc.reverse, l)
  | fuel + 1, l, acc =>
    if isLetterCh l.ch ∨ isDigitCh l.ch then
      lexReadIdent fuel (lexReadChar l) (l.ch :: acc)
    else (acc.reverse, l)

/-- `Lexer.readNumber` (fuelled loop): digits with at most one dot;
returns (isFloat, literal). -/
def lexReadNumber : Nat → Lexer → Nat → List Char → (Bool × List Char) × Lexer
  | 0, l, decimals, acc => ((decimals > 0, acc.reverse), l)
  | fuel + 1, l, decimals, acc =>
    if isDigitCh l.ch ∨ l.ch = '.' then
      if l.ch = '.' then
        if decimals > 0 then ((decimals > 0, acc.reverse), l)
        else lexReadNumber fuel (lexReadChar l) (decimals + 1) (l.ch :: acc)
      else lexReadNumber fuel (lexReadChar l) decimals (l.ch :: acc)
    else ((decimals > 0, acc.reverse), l)

/-- `Lexer.readString` (fuelled loop): consume up to closing quote or end. -/
def lexReadString : Nat → Lexer → List Char → List Char × Lexer
  | 0, l, acc => (acc.reverse, l)
  | fuel + 1, l, acc =>
    let l := lexReadChar l
    if l.ch = '"' ∨ l.ch = Char.ofNat 0 then (acc.reverse, l)
    else lexReadString fuel l (l.ch :: acc)

/-- Single-character token (`lexer.newToken`). -/
def mkTok (t : String) (c : Char) (l : Lexer) : Token :=
  { type := t, literal := String.mk [c], lineNo := l.lineNo, charNo := l.charNo }

/-- Two-character operator token: the Go code builds these after the extra
`readChar`, so positions reflect the second character. -/
def mkTok2 (t : String) (c1 : Char) (l : Lexer) : Token :=
  { type := t, literal := String.mk [c1, l.ch], lineNo := l.lineNo, charNo := l.charNo }

/-- `Lexer.NextToken`.  The internal loops get `input.length + 1` fuel,
enough to scan to the end of the input. -/
def lexNextToken (l : Lexer) : Token × Lexer :=
  let fuel := l.input.length + 1
  let l := lexSkipWs fuel l
  let line := l.lineNo
  let col := l.charNo
  if l.ch = ';' then (mkTok TokenType.SEMICOLON l.ch l, lexReadChar l)
  else if l.ch = '.' then (mkTok TokenType.DOT l.ch l, lexReadChar l)
  else if l.ch = '(' then (mkTok TokenType.LPAREN l.ch l, lexReadChar l)
  else if l.ch = ')' then (mkTok TokenType.RPAREN l.ch l, lexReadChar l)
  else if l.ch = ',' then (mkTok TokenType.COMMA l.ch l, lexReadChar l)
  else if l.ch = '+' then (mkTok TokenType.PLUS l.ch l, lexReadChar l)
  else if l.ch = '{' then (mkTok TokenType.LBRACE l.ch l, lexReadChar l)
  else if l.ch = '}' then (mkTok TokenType.RBRACE l.ch l, lexReadChar l)
  else if l.ch = '-' then (mkTok TokenType.MINUS l.ch l, lexReadChar l)
  else if l.ch = '*' then (mkTok TokenType.ASTERISK l.ch l, lexReadChar l)
  else if l.ch = '/' then (mkTok TokenType.SLASH l.ch l, lexReadChar l)
  else if l.ch = '=' then
    if lexPeekChar l = '=' then
      let c1 := l.ch
      let l := lexReadChar l
      (mkTok2 TokenType.EQ c1 l, lexReadChar l)
    else (mkTok TokenType.ASSIGN l.ch l, lexReadChar l)
  else if l.ch = '!' then
    if lexPeekChar l = '=' then
      let c1 := l.ch
      let l := lexReadChar l
      (mkTok2 TokenType.NOT_EQ c1 l, lexReadChar l)
    else (mkTok TokenType.BANG l.ch l, lexReadChar l)
  else if l.ch = '<' then
    if lexPeekChar l = '=' then
      let c1 := l.ch
      let l := lexReadChar l
      (mkTok2 TokenType.LTE c1 l, lexReadChar l)
    else (mkTok TokenType.LT l.ch l, lexReadChar l)
  else if l.ch = '>' then
    if lexPeekChar l = '=' then
      let c1 := l.ch
      let l := lexReadChar l
      (mkTok2 TokenType.GTE c1 l, lexReadChar l)
    else (mkTok TokenType.GT l.ch l, lexReadChar l)
  else if l.ch = '"' then
    let (s, l) := lexReadString fuel l []
    ({ type := TokenType.STRING, literal := String.mk s,
       lineNo := line, charNo := col }, lexReadChar l)
  else if l.ch = ':' then (mkTok TokenType.COLON l.ch l, lexReadChar l)
  else if l.ch = '[' then (mkTok TokenType.LBRACKET l.ch l, lexReadChar l)
  else if l.ch = ']' then (mkTok TokenType.RBRACKET l.ch l, lexReadChar l)
  else if l.ch = Char.ofNat 0 then
    ({ type := TokenType.EOF, literal := "", lineNo := line, charNo := col }, l)
  else if isLetterCh l.ch then
    let (s, l) := lexReadIdent fuel l []
    ({ type := lookupIdent (String.mk s), literal := String.mk s,
       lineNo := line, charNo := col }, l)
  else if isDigitCh l.ch then
    let ((isFloat, s), l) := lexReadNumber fuel l 0 []
    ({ type := if isFloat then TokenType.FLOAT else TokenType.INT,
       literal := String.mk s, lineNo := line, charNo := col }, l)
  else (mkTok TokenType.ILLEGAL l.ch l, lexReadChar l)

/-- Run the lexer to completion: the token stream of a source string,
ending with the EOF token. -/
def lexAllAux : Nat → Lexer → List Token
  | 0, _ => []
  | fuel + 1, l =>
    let (tok, l) := lexNextToken l
    if tok.type = TokenType.EOF then [tok]
    else tok :: lexAllAux fuel l

def lexAll (src : String) : List Token :=
  lexAllAux (src.length + 2) (lexNew src.data)

/-! ## AST (`ast` package, as consumed by the parser and evaluator)

Nodes drop the `Token` metadata fields.  `Expr.nilE` stands for a nil
`ast.Expression` interface value, which failed parselets return and which
`Eval` maps to a nil object.  `Stmt.badStmt` stands for the typed-nil
`*ast.LetStatement` that `parseStatement` wraps into a non-nil
`ast.Statement` interface after a failed let parse (evaluating it
dereferences a nil pointer, i.e. panics). -/

mutual

inductive Expr where
  | nilE
  | ident (name : String)
  | intLit (v : Int)
  | floatLit (v : Int)
  | boolLit (b : Bool)
  | strLit (s : String)
  | arrayLit (elems : List Expr)
  | hashLit (pairs : List (Expr × Expr))
  | preOp (op : String) (right : Expr)
  | binOp (op : String) (left : Expr) (right : Expr)
  | indexE (left : Expr) (idx : Expr)
  | ifE (cond : Expr) (cons : List Stmt) (alt : Option (List Stmt))
  | whileE (cond : Expr) (body : List Stmt)
  | fnLit (params : List String) (body : List Stmt)
  | callE (fn : Expr) (args : List Expr)
  | classE (name : String) (parents : List String) (body : List Stmt)
  | importE (path : String) (aliasName : Option String)

inductive Stmt where
  | letS (name : String) (property : Option String) (value : Expr)
  | returnS (value : Expr)
  | exprS (e : Expr)
  | badStmt

end

/-! ## Parser (`parser` package) -/

/-- The precedence levels (`iota` constants). -/
def LOWEST : Nat := 1
def EQUALS : Nat := 2
def LESSGREATER : Nat := 3
def SUM : Nat := 4
def PRODUCT : Nat := 5
def PREFIXP : Nat := 6
def DOTP : Nat := 7
def CALLP : Nat := 8
def INDEXP : Nat := 9

/-- The `precedences` map of the source: note there is no entry for the
`<=` or `>=` token kinds. -/
def precedences (t : String) : Option Nat :=
  if t = TokenType.EQ then some EQUALS
  else if t = TokenType.NOT_EQ then some EQUALS
  else if t = TokenType.LT then some LESSGREATER
  else if t = TokenType.GT then some LESSGREATER
  else if t = TokenType.PLUS then some SUM
  else if t = TokenType.MINUS then some SUM
  else if t = TokenType.SLASH then some PRODUCT
  else if t = TokenType.ASTERISK then some PRODUCT
  else if t = TokenType.DOT then some DOTP
  else if t = TokenType.LPAREN then some CALLP
  else if t = TokenType.LBRACKET then some INDEXP
  else none

/-- The set of token kinds with a registered prefix parselet
(`parser.New`). -/
def hasPreParselet (t : String) : Bool :=
  t = TokenType.IDENT ∨ t = TokenType.INT ∨ t = TokenType.FLOAT ∨
  t = TokenType.BANG ∨ t = TokenType.MINUS ∨ t = TokenType.TRUE ∨
  t = TokenType.FALSE ∨ t = TokenType.LPAREN ∨ t = TokenType.IF ∨
  t = TokenType.WHILE ∨ t = TokenType.FUNCTION ∨ t = TokenType.STRING ∨
  t = TokenType.LBRACKET ∨ t = TokenType.LBRACE ∨ t = TokenType.CLASS ∨
  t = TokenType.IMPORT

/-- The set of token kinds with a registered infix parselet
(`parser.New`): note `<=` and `>=` are not registered. -/
def hasInfParselet (t : String) : Bool :=
  t = TokenType.DOT ∨ t = TokenType.PLUS ∨ t = TokenType.MINUS ∨
  t = TokenType.SLASH ∨ t = TokenType.ASTERISK ∨ t = TokenType.EQ ∨
  t = TokenType.NOT_EQ ∨ t = TokenType.LT ∨ t = TokenType.GT ∨
  t = TokenType.LPAREN ∨ t = TokenType.LBRACKET

/-- Parser state: the (pre-lexed) token stream, the cursor (`curToken` is
`toks[pos]`, `peekToken` is `toks[pos+1]`, EOF forever past the end), and
the accumulated error messages. -/
structure PState where
  toks : List Token
  pos : Nat
  errors : List String
  deriving Repr

def eofToken : Token :=
  { type := TokenType.EOF, literal := "", lineNo := 0, charNo := 0 }

def PState.cur (p : PState) : Token := p.toks.getD p.pos eofToken
def PState.peek (p : PState) : Token := p.toks.getD (p.pos + 1) eofToken
def PState.next (p : PState) : PState := { p with pos := p.pos + 1 }
def PState.addError (p : PState) (msg : String) : PState :=
  { p with errors := p.errors ++ [msg] }

def PState.curTokenIs (p : PState) (t : String) : Bool := p.cur.type = t
def PState.peekTokenIs (p : PState) (t : String) : Bool := p.peek.type = t

/-- `Parser.peekError`. -/
def PState.peekError (p : PState) (t : String) : PState :=
  p.addError ("expected next token to be " ++ t ++ ", got " ++ p.peek.type
    ++ " instead")

/-- `Parser.expectPeek`. -/
def PState.expectPeek (p : PState) (t : String) : Bool × PState :=
  if p.peekTokenIs t then (true, p.next) else (false, p.peekError t)

/-- `Parser.curPrecedence`. -/
def PState.curPrecedence (p : PState) : Nat :=
  (precedences p.cur.type).getD LOWEST

/-- `Parser.peekPrecedence`. -/
def PState.peekPrecedence (p : PState) : Nat :=
  (precedences p.peek.type).getD LOWEST

/-- `Parser.noPrefixParseFnError`. -/
def PState.noPreParseFnError (p : PState) (t : String) : PState :=
  p.addError ("no prefix parse function for " ++ t ++ " found")

mutual

/-- `Parser.parseExpression`.  `Expr.nilE` is the nil expression returned
on failure; out of fuel also records an internal error so it can never be
confused with a successful parse. -/
def parseExpression (fuel : Nat) (prec : Nat) (p : PState) : Expr × PState :=
  match fuel with
  | 0 => (.nilE, p.addError "internal: parser out of fuel")
  | fuel + 1 =>
    if hasPreParselet p.cur.type then
      let (leftExp, p) := parsePreParselet fuel p
      parseExpLoop fuel prec leftExp p
    else
      (.nilE, p.noPreParseFnError p.cur.type)

/-- The `for` loop of `parseExpression`. -/
def parseExpLoop (fuel : Nat) (prec : Nat) (leftExp : Expr) (p : PState) :
    Expr × PState :=
  match fuel with
  | 0 => (.nilE, p.addError "internal: parser out of fuel")
  | fuel + 1 =>
    if ¬p.peekTokenIs TokenType.SEMICOLON ∧ prec < p.peekPrecedence then
      if hasInfParselet p.peek.type then
        let p := p.next
        let (leftExp, p) := parseInfParselet fuel leftExp p
        parseExpLoop fuel prec leftExp p
      else (leftExp, p)
    else (leftExp, p)

/-- Dispatch on the registered prefix parselets (`p.prefixParseFns`);
callers check `hasPreParselet` first. -/
def parsePreParselet (fuel : Nat) (p : PState) : Expr × PState :=
  match fuel with
  | 0 => (.nilE, p.addError "internal: parser out of fuel")
  | fuel + 1 =>
    let t := p.cur.type
    if t = TokenType.IDENT then (.ident p.cur.literal, p)
    else if t = TokenType.INT then
      match goParseIntBase0 p.cur.literal with
      | some v => (.intLit v, p)
      | none =>
        (.nilE, p.addError ("Could not parsse \"" ++ p.cur.literal ++ "\" as integer"))
    else if t = TokenType.FLOAT then
      match goParseFloat p.cur.literal with
      | some v => (.floatLit v, p)
      | none =>
        (.nilE, p.addError ("Could not parsse \"" ++ p.cur.literal ++ "\" as float"))
    else if t = TokenType.BANG ∨ t = TokenType.MINUS then
      parsePreOpExpr fuel p
    else if t = TokenType.TRUE ∨ t = TokenType.FALSE then
      (.boolLit (p.curTokenIs TokenType.TRUE), p)
    else if t = TokenType.LPAREN then parseGroupedExpr fuel p
    else if t = TokenType.IF then parseIfExpr fuel p
    else if t = TokenType.WHILE then parseWhileExpr fuel p
    else if t = TokenType.FUNCTION then parseFunctionLit fuel p
    else if t = TokenType.STRING then (.strLit p.cur.literal, p)
    else if t = TokenType.LBRACKET then parseArrayLit fuel p
    else if t = TokenType.LBRACE then parseHashLit fuel p
    else if t = TokenType.CLASS then parseClassLit fuel p
    else if t = TokenType.IMPORT then parseImportStmt fuel p
    else (.nilE, p)

/-- Dispatch on the registered infix parselets (`p.infixParseFns`);
callers check `hasInfParselet` first.  Current token is the operator. -/
def parseInfParselet (fuel : Nat) (leftExp : Expr) (p : PState) :
    Expr × PState :=
  match fuel with
  | 0 => (.nilE, p.addError "internal: parser out of fuel")
  | fuel + 1 =>
    let t := p.cur.type
    if t = TokenType.LPAREN then parseCallExpr fuel leftExp p
    else if t = TokenType.LBRACKET then parseIndexExpr fuel leftExp p
    else parseBinOpExpr fuel leftExp p

/-- `Parser.parsePrefixExpression`. -/
def parsePreOpExpr (fuel : Nat) (p : PState) : Expr × PState :=
  match fuel with
  | 0 => (.nilE, p.addError "internal: parser out of fuel")
  | fuel + 1 =>
    let op := p.cur.literal
    let p := p.next
    let (right, p) := parseExpression fuel PREFIXP p
    (.preOp op right, p)

/-- `Parser.parseInfixExpression`. -/
def parseBinOpExpr (fuel : Nat) (leftExp : Expr) (p : PState) :
    Expr × PState :=
  match fuel with
  | 0 => (.nilE, p.addError "internal: parser out of fuel")
  | fuel + 1 =>
    let op := p.cur.literal
    let prec := p.curPrecedence
    let p := p.next
    let (right, p) := parseExpression fuel prec p
    (.binOp op leftExp right, p)

/-- `Parser.parseGroupedExpression`. -/
def parseGroupedExpr (fuel : Nat) (p : PState) : Expr × PState :=
  match fuel with
  | 0 => (.nilE, p.addError "internal: parser out of fuel")
  | fuel + 1 =>
    let p := p.next
    let (exp, p) := parseExpression fuel LOWEST p
    match p.expectPeek TokenType.RPAREN with
    | (false, p) => (.nilE, p)
    | (true, p) => (exp, p)

/-- `Parser.parseIfExpression`. -/
def parseIfExpr (fuel : Nat) (p : PState) : Expr × PState :=
  match fuel with
  | 0 => (.nilE, p.addError "internal: parser out of fuel")
  | fuel + 1 =>
    match p.expectPeek TokenType.LPAREN with
    | (false, p) => (.nilE, p)
    | (true, p) =>
      let p := p.next
      let (cond, p) := parseExpression fuel LOWEST p
      match p.expectPeek TokenType.RPAREN with
      | (false, p) => (.nilE, p)
      | (true, p) =>
        match p.expectPeek TokenType.LBRACE with
        | (false, p) => (.nilE, p)
        | (true, p) =>
          let (cons, p) := parseBlockStmt fuel p
          if p.peekTokenIs TokenType.ELSE then
            let p := p.next
            match p.expectPeek TokenType.LBRACE with
            | (false, p) => (.nilE, p)
            | (true, p) =>
              let (alt, p) := parseBlockStmt fuel p
              (.ifE cond cons (some alt), p)
          else (.ifE cond cons none, p)

/-- `Parser.parseWhileExpression`. -/
def parseWhileExpr (fuel : Nat) (p : PState) : Expr × PState :=
  match fuel with
  | 0 => (.nilE, p.addError "internal: parser out of fuel")
  | fuel + 1 =>
    match p.expectPeek TokenType.LPAREN with
    | (false, p) => (.nilE, p)
    | (true, p) =>
      let p := p.next
      let (cond, p) := parseExpression fuel LOWEST p
      match p.expectPeek TokenType.RPAREN with
      | (false, p) => (.nilE, p)
      | (true, p) =>
        match p.expectPeek TokenType.LBRACE with
        | (false, p) => (.nilE, p)
        | (true, p) =>
          let (body, p) := parseBlockStmt fuel p
          (.whileE cond body, p)

/-- `Parser.parseFunctionLiteral`. -/
def parseFunctionLit (fuel : Nat) (p : PState) : Expr × PState :=
  match fuel with
  | 0 => (.nilE, p.addError "internal: parser out of fuel")
  | fuel + 1 =>
    match p.expectPeek TokenType.LPAREN with
    | (false, p) => (.nilE, p)
    | (true, p) =>
      let (params, p) := parseFunctionParams fuel p
      match p.expectPeek TokenType.LBRACE with
      | (false, p) => (.nilE, p)
      | (true, p) =>
        let (body, p) := parseBlockStmt fuel p
        (.fnLit params body, p)

/-- `Parser.parseFunctionParameters` (a failed close-paren returns the Go
nil slice, which behaves as the empty parameter list). -/
def parseFunctionParams (fuel : Nat) (p : PState) : List String × PState :=
  match fuel with
  | 0 => ([], p.addError "internal: parser out of fuel")
  | fuel + 1 =>
    if p.peekTokenIs TokenType.RPAREN then ([], p.next)
    else
      let p := p.next
      let first := p.cur.literal
      let (rest, p) := parseFunctionParamsLoop fuel p
      match p.expectPeek TokenType.RPAREN with
      | (false, p) => ([], p)
      | (true, p) => (first :: rest, p)

/-- The comma loop of `parseFunctionParameters`. -/
def parseFunctionParamsLoop (fuel : Nat) (p : PState) : List String × PState :=
  match fuel with
  | 0 => ([], p.addError "internal: parser out of fuel")
  | fuel + 1 =>
    if p.peekTokenIs TokenType.COMMA then
      let p := p.next.next
      let i := p.cur.literal
      let (rest, p) := parseFunctionParamsLoop fuel p
      (i :: rest, p)
    else ([], p)

/-- `Parser.parseBlockStatement`. -/
def parseBlockStmt (fuel : Nat) (p : PState) : List Stmt × PState :=
  match fuel with
  | 0 => ([], p.addError "internal: parser out of fuel")
  | fuel + 1 => parseBlockLoop fuel p.next

/-- The statement loop of `parseBlockStatement`. -/
def parseBlockLoop (fuel : Nat) (p : PState) : List Stmt × PState :=
  match fuel with
  | 0 => ([], p.addError "internal: parser out of fuel")
  | fuel + 1 =>
    if ¬p.curTokenIs TokenType.RBRACE ∧ ¬p.curTokenIs TokenType.EOF then
      let (stmt, p) := parseStatement fuel p
      let (rest, p) := parseBlockLoop fuel p.next
      (stmt :: rest, p)
    else ([], p)

/-- `Parser.parseCallExpression`. -/
def parseCallExpr (fuel : Nat) (fn : Expr) (p : PState) : Expr × PState :=
  match fuel with
  | 0 => (.nilE, p.addError "internal: parser out of fuel")
  | fuel + 1 =>
    let (args, p) := parseExpressionList fuel TokenType.RPAREN p
    (.callE fn args, p)

/-- `Parser.parseArrayLiteral`. -/
def parseArrayLit (fuel : Nat) (p : PState) : Expr × PState :=
  match fuel with
  | 0 => (.nilE, p.addError "internal: parser out of fuel")
  | fuel + 1 =>
    let (elems, p) := parseExpressionList fuel TokenType.RBRACKET p
    (.arrayLit elems, p)

/-- `Parser.parseExpressionList` (failure returns the Go nil slice,
behaving as the empty list). -/
def parseExpressionList (fuel : Nat) (endTok : String) (p : PState) :
    List Expr × PState :=
  match fuel with
  | 0 => ([], p.addError "internal: parser out of fuel")
  | fuel + 1 =>
    if p.peekTokenIs endTok then ([], p.next)
    else
      let p := p.next
      let (first, p) := parseExpression fuel LOWEST p
      let (rest, p) := parseExpressionListLoop fuel p
      match p.expectPeek endTok with
      | (false, p) => ([], p)
      | (true, p) => (first :: rest, p)

/-- The comma loop of `parseExpressionList`. -/
def parseExpressionListLoop (fuel : Nat) (p : PState) : List Expr × PState :=
  match fuel with
  | 0 => ([], p.addError "internal: parser out of fuel")
  | fuel + 1 =>
    if p.peekTokenIs TokenType.COMMA then
      let p := p.next.next
      let (e, p) := parseExpression fuel LOWEST p
      let (rest, p) := parseExpressionListLoop fuel p
      (e :: rest, p)
    else ([], p)

/-- `Parser.parseIndexExpression`. -/
def parseIndexExpr (fuel : Nat) (leftExp : Expr) (p : PState) :
    Expr × PState :=
  match fuel with
  | 0 => (.nilE, p.addError "internal: parser out of fuel")
  | fuel + 1 =>
    let p := p.next
    let p :=
      if p.curTokenIs TokenType.RBRACKET then
        p.addError "Expected an expression between `[` and `]`"
      else p
    let (idx, p) := parseExpression fuel LOWEST p
    match p.expectPeek TokenType.RBRACKET with
    | (false, p) => (.nilE, p)
    | (true, p) => (.indexE leftExp idx, p)

/-- `Parser.parseHashLiteral`. -/
def parseHashLit (fuel : Nat) (p : PState) : Expr × PState :=
  match fuel with
  | 0 => (.nilE, p.addError "internal: parser out of fuel")
  | fuel + 1 =>
    match parseHashLoop fuel p [] with
    | (none, p) => (.nilE, p)
    | (some pairs, p) => (.hashLit pairs, p.next)

/-- The pair loop of `parseHashLiteral`; `none` is the nil hash returned
when a delimiter is missing. -/
def parseHashLoop (fuel : Nat) (p : PState) (acc : List (Expr × Expr)) :
    Option (List (Expr × Expr)) × PState :=
  match fuel with
  | 0 => (none, p.addError "internal: parser out of fuel")
  | fuel + 1 =>
    if ¬p.peekTokenIs TokenType.RBRACE then
      let p := p.next
      let (key, p) := parseExpression fuel LOWEST p
      match p.expectPeek TokenType.COLON with
      | (false, p) => (none, p)
      | (true, p) =>
        let p := p.next
        let (value, p) := parseExpression fuel LOWEST p
        let acc := acc ++ [(key, value)]
        if ¬p.peekTokenIs TokenType.RBRACE then
          match p.expectPeek TokenType.COMMA with
          | (false, p) => (none, p)
          | (true, p) => parseHashLoop fuel p acc
        else parseHashLoop fuel p acc
    else (some acc, p)

/-- `Parser.parseClassLiteral`. -/
def parseClassLit (fuel : Nat) (p : PState) : Expr × PState :=
  match fuel with
  | 0 => (.nilE, p.addError "internal: parser out of fuel")
  | fuel + 1 =>
    match p.expectPeek TokenType.IDENT with
    | (false, p) => (.nilE, p)
    | (true, p) =>
      let name := p.cur.literal
      match p.expectPeek TokenType.LPAREN with
      | (false, p) => (.nilE, p)
      | (true, p) =>
        let (parents, p) := parseClassParentsLoop fuel p
        let p := p.next
        match p.expectPeek TokenType.LBRACE with
        | (false, p) => (.nilE, p)
        | (true, p) =>
          let (body, p) := parseBlockStmt fuel p
          (.classE name parents body, p)

/-- The parents loop of `parseClassLiteral`. -/
def parseClassParentsLoop (fuel : Nat) (p : PState) : List String × PState :=
  match fuel with
  | 0 => ([], p.addError "internal: parser out of fuel")
  | fuel + 1 =>
    if ¬p.peekTokenIs TokenType.RPAREN ∧ ¬p.peekTokenIs TokenType.EOF then
      let p := p.next
      let i := p.cur.literal
      let p := if p.peekTokenIs TokenType.COMMA then p.next else p
      let (rest, p) := parseClassParentsLoop fuel p
      (i :: rest, p)
    else ([], p)

/-- `Parser.parseImportStatement` (note the unused result of the second
`expectPeek`, faithfully ignored). -/
def parseImportStmt (fuel : Nat) (p : PState) : Expr × PState :=
  match fuel with
  | 0 => (.nilE, p.addError "internal: parser out of fuel")
  | fuel + 1 =>
    match p.expectPeek TokenType.STRING with
    | (false, p) => (.nilE, p)
    | (true, p) =>
      let (importValue, p) := parseExpression fuel LOWEST p
      match importValue with
      | .strLit path =>
        if p.peekTokenIs TokenType.AS then
          let p := p.next
          let (_, p) := p.expectPeek TokenType.STRING
          let (aliasValue, p) := parseExpression fuel LOWEST p
          match aliasValue with
          | .strLit a =>
            let p := if p.peekTokenIs TokenType.SEMICOLON then p.next else p
            (.importE path (some a), p)
          | _ => (.nilE, p)
        else
          let p := if p.peekTokenIs TokenType.SEMICOLON then p.next else p
          (.importE path none, p)
      | _ => (.nilE, p)

/-- `Parser.parseLetStatement`; `none` is the nil `*ast.LetStatement`. -/
def parseLetStmt (fuel : Nat) (p : PState) : Option Stmt × PState :=
  match fuel with
  | 0 => (none, p.addError "internal: parser out of fuel")
  | fuel + 1 =>
    match p.expectPeek TokenType.IDENT with
    | (false, p) => (none, p)
    | (true, p) =>
      let name := p.cur.literal
      let (property, ok, p) :=
        if p.peekTokenIs TokenType.DOT then
          let p := p.next
          match p.expectPeek TokenType.IDENT with
          | (false, p) => (none, false, p)
          | (true, p) => (some p.cur.literal, true, p)
        else (none, true, p)
      if ¬ok then (none, p)
      else
        match p.expectPeek TokenType.ASSIGN with
        | (false, p) => (none, p)
        | (true, p) =>
          let p := p.next
          let (value, p) := parseExpression fuel LOWEST p
          let p := if p.peekTokenIs TokenType.SEMICOLON then p.next else p
          (some (.letS name property value), p)

/-- `Parser.parseReturnStatement`. -/
def parseReturnStmt (fuel : Nat) (p : PState) : Stmt × PState :=
  match fuel with
  | 0 => (.badStmt, p.addError "internal: parser out of fuel")
  | fuel + 1 =>
    let p := p.next
    let (value, p) := parseExpression fuel LOWEST p
    let p := if p.peekTokenIs TokenType.SEMICOLON then p.next else p
    (.returnS value, p)

/-- `Parser.parseExpressionStatement`. -/
def parseExpressionStmt (fuel : Nat) (p : PState) : Stmt × PState :=
  match fuel with
  | 0 => (.badStmt, p.addError "internal: parser out of fuel")
  | fuel + 1 =>
    let (e, p) := parseExpression fuel LOWEST p
    let p := if p.peekTokenIs TokenType.SEMICOLON then p.next else p
    (.exprS e, p)

/-- `Parser.parseStatement`.  A nil `*ast.LetStatement` is wrapped into a
non-nil `ast.Statement` interface, so it still reaches the program
(`Stmt.badStmt`). -/
def parseStatement (fuel : Nat) (p : PState) : Stmt × PState :=
  match fuel with
  | 0 => (.badStmt, p.addError "internal: parser out of fuel")
  | fuel + 1 =>
    if p.curTokenIs TokenType.LET then
      match parseLetStmt fuel p with
      | (none, p) => (.badStmt, p)
      | (some s, p) => (s, p)
    else if p.curTokenIs TokenType.RETURN then parseReturnStmt fuel p
    else parseExpressionStmt fuel p

/-- `Parser.ParseProgram`'s statement loop. -/
def parseProgramLoop (fuel : Nat) (p : PState) : List Stmt × PState :=
  match fuel with
  | 0 => ([], p.addError "internal: parser out of fuel")
  | fuel + 1 =>
    if ¬p.curTokenIs TokenType.EOF then
      let (stmt, p) := parseStatement fuel p
      let (rest, p) := parseProgramLoop fuel p.next
      (stmt :: rest, p)
    else ([], p)

end

/-- `parser.New` + `Parser.ParseProgram` on a source string: the program
statements and the parser errors. -/
def parseSource (src : String) : List Stmt × List String :=
  let toks := lexAll src
  let p : PState := { toks := toks, pos := 0, errors := [] }
  let fuel := 4 * toks.length + 16
  let (stmts, p) := parseProgramLoop fuel p
  (stmts, p.errors)

/-! ## Runtime values (`object` package)

All `object.Object` implementations are pointer types in Go, so an
`object.Object` interface value is either nil (`Option.none` here) or one
of the variants below.  Environments are heap references (indices). -/

/-- `object.HashKey`: a type tag and a `float64` payload (held as the
exact rational value of the double). -/
structure HashKey where
  type : String
  value : Int
  deriving Repr, DecidableEq

inductive Object where
  | intO (v : Int)
  | floatO (v : Int)
  | boolO (b : Bool)
  | strO (s : String)
  | nullO
  | returnO (v : Option Object)
  | errorO (msg : String)
  | functionO (params : List String) (body : List Stmt) (env : Nat)
  | builtinO (name : String)
  | arrayO (elems : List (Option Object))
  | hashO (pairs : List (HashKey × Object × Option Object))
  | classO (name : String) (env : Nat)
  | instanceO (name : String) (env : Nat)
  | moduleO (name : String) (env : Nat)

/-- The `ObjectType` constants (`BOOOLEAN_OBJ` is the source's spelling). -/
def INTEGER_OBJ := "INTEGER"
def FLOAT_OBJ := "FLOAT"
def BOOOLEAN_OBJ := "BOOLEAN"
def NULL_OBJ := "NULL"
def RETURN_VALUE_OBJ := "RETURN_VALUE"
def FUNCTION_OBJ := "FUNCTION"
def STRING_OBJ := "STRING"
def ERROR_OBJ := "ERROR"
def BUILTIN_OBJ := "BUILTIN"
def ARRAY_OBJ := "ARRAY"
def HASH_OBJ := "HASH"
def CLASS_OBJ := "CLASS"
def CLASSINSTANCE_OBJ := "CLASS_INSTANCE"
def MODULE_OBJ := "MODULE"

/-- `Object.Type()`. -/
def objType : Object → String
  | .intO _ => INTEGER_OBJ
  | .floatO _ => FLOAT_OBJ
  | .boolO _ => BOOOLEAN_OBJ
  | .strO _ => STRING_OBJ
  | .nullO => NULL_OBJ
  | .returnO _ => RETURN_VALUE_OBJ
  | .errorO _ => ERROR_OBJ
  | .functionO _ _ _ => FUNCTION_OBJ
  | .builtinO _ => BUILTIN_OBJ
  | .arrayO _ => ARRAY_OBJ
  | .hashO _ => HASH_OBJ
  | .classO _ _ => CLASS_OBJ
  | .instanceO _ _ => CLASSINSTANCE_OBJ
  | .moduleO _ _ => MODULE_OBJ

/-- What Go's `%T` verb prints for an `object.Object` interface value. -/
def goTypeName : Option Object → String
  | none => "<nil>"
  | some (.intO _) => "*object.Integer"
  | some (.floatO _) => "*object.Float"
  | some (.boolO _) => "*object.Boolean"
  | some (.strO _) => "*object.String"
  | some .nullO => "*object.Null"
  | some (.returnO _) => "*object.ReturnValue"
  | some (.errorO _) => "*object.Error"
  | some (.functionO _ _ _) => "*object.Function"
  | some (.builtinO _) => "*object.Builtin"
  | some (.arrayO _) => "*object.Array"
  | some (.hashO _) => "*object.Hash"
  | some (.classO _ _) => "*object.Class"
  | some (.instanceO _ _) => "*object.ClassInstance"
  | some (.moduleO _ _) => "*object.Module"

/-- The `object.Hashable` interface: exactly `Integer`, `Float`,
`Boolean` and `String` implement `HashKey()` in `object.go` (note that
`Float` does — `Float.HashKey` exists at `object.go:71`).  The payloads
are the `float64` values the methods store: the numeric conversion of the
integer, the float itself, 0/1, and the numeric conversion of the 64-bit
FNV-1a hash of the string's bytes. -/
def hashKeyOf : Object → Option HashKey
  | .intO v => some ⟨INTEGER_OBJ, intToF64 v⟩
  | .floatO q => some ⟨FLOAT_OBJ, q⟩
  | .boolO b => some ⟨BOOOLEAN_OBJ, if b then oneF64 else 0⟩
  | .strO s => some ⟨STRING_OBJ, intToF64 (fnv1a64 (strBytes s))⟩
  | _ => none

/-- Left-pad with zeros to six digits. -/
def padSix (s : String) : String :=
  String.mk (List.replicate (6 - s.length) '0') ++ s

/-- Go's `fmt.Sprintf("%f", v)` on an exactly-held double (scaled by
`2^1074`): six decimals, correctly rounded. -/
def formatF64 (q : Int) : String :=
  let n := (divRoundHalfEven ((q.natAbs * 10 ^ 6 : Nat) : Int)
    ((2 ^ 1074 : Nat) : Int)).toNat
  let sign := if q < 0 then "-" else ""
  sign ++ natRepr (n / 10 ^ 6) ++ "." ++ padSix (natRepr (n % 10 ^ 6))

/-! ### AST printing (`String()` methods of the `ast` package)

Literal nodes print their source token literal in Go; the embedding
re-renders them from the parsed value, which agrees on every decimal
literal.  `IfExpression.String` faithfully omits the consequence (as the
source does).  `WhileExpression` has no `String` method in the snapshot;
it is given the shape of the `if` printer.  None of the theorems below
depend on AST printing. -/

mutual

def exprString : Expr → String
  | .nilE => "<nil>"
  | .ident n => n
  | .intLit v => intRepr v
  | .floatLit q => formatF64 q
  | .boolLit b => if b then "true" else "false"
  | .strLit s => s
  | .arrayLit elems => "[" ++ String.intercalate ", " (exprListString elems) ++ "]"
  | .hashLit pairs => "\x7b" ++ String.intercalate ", " (exprPairsString pairs) ++ "\x7d"
  | .preOp op r => "(" ++ op ++ exprString r ++ ")"
  | .binOp op l r => "(" ++ exprString l ++ " " ++ op ++ " " ++ exprString r ++ ")"
  | .indexE l i => "(" ++ exprString l ++ "[" ++ exprString i ++ "])"
  | .ifE c _ alt =>
    "if" ++ "(" ++ exprString c ++ ")" ++ " " ++
      (match alt with
       | some a => "else " ++ stmtListString a
       | none => "")
  | .whileE c _ => "while" ++ "(" ++ exprString c ++ ")" ++ " "
  | .fnLit params body =>
    "fn" ++ "(" ++ String.intercalate ", " params ++ ")" ++ stmtListString body
  | .callE f args =>
    exprString f ++ "(" ++ String.intercalate ", " (exprListString args) ++ ")"
  | .classE n parents body =>
    "class " ++ n ++ "(" ++ String.intercalate ", " parents ++ ") \x7b" ++
      stmtListString body ++ "\x7d"
  | .importE path _ => "import " ++ path ++ ";"

def exprListString : List Expr → List String
  | [] => []
  | e :: rest => exprString e :: exprListString rest

def exprPairsString : List (Expr × Expr) → List String
  | [] => []
  | (k, v) :: rest => (exprString k ++ ":" ++ exprString v) :: exprPairsString rest

def stmtString : Stmt → String
  | .letS n _ v => "let " ++ n ++ " = " ++ exprString v ++ ";"
  | .returnS v => "return " ++ exprString v ++ ";"
  | .exprS e => exprString e
  | .badStmt => "<nil>"

def stmtListString : List Stmt → String
  | [] => ""
  | s :: rest => stmtString s ++ stmtListString rest

end

/-! ### `Inspect()` -/

mutual

/-- `Object.Inspect()`.  Calling `Inspect` through a nil interface value
panics in Go; those spots render `"<nil>"` here and are unreachable in
the programs the theorems evaluate. -/
def inspect : Object → String
  | .intO v => intRepr v
  | .floatO q => formatF64 q
  | .boolO b => if b then "true" else "false"
  | .strO s => s
  | .nullO => "null"
  | .returnO (some o) => inspect o
  | .returnO none => "<nil>"
  | .errorO m => "Error: " ++ m
  | .functionO params body _ =>
    "fn" ++ "(" ++ String.intercalate ", " params ++ ") \x7b\n" ++
      stmtListString body ++ "\n"
  | .builtinO _ => "builtin function"
  | .arrayO elems => "[" ++ String.intercalate ", " (inspectElems elems) ++ "]"
  | .hashO pairs => "\x7b" ++ String.intercalate ", " (inspectPairs pairs) ++ "\x7d"
  | .classO n _ => "class " ++ n
  | .instanceO n _ => "<Instance of Class " ++ n ++ ">"
  | .moduleO n _ => "module " ++ n

def inspectElems : List (Option Object) → List String
  | [] => []
  | some o :: rest => inspect o :: inspectElems rest
  | none :: rest => "<nil>" :: inspectElems rest

def inspectPairs : List (HashKey × Object × Option Object) → List String
  | [] => []
  | (_, k, some v) :: rest => (inspect k ++ ": " ++ inspect v) :: inspectPairs rest
  | (_, k, none) :: rest => (inspect k ++ ": " ++ "<nil>") :: inspectPairs rest

end

/-! ## Environments (`object/environment.go` and its extension with
`SetOuter`/`GetOuter`/`ShallowCopy`/`Closed`/`SetMultiple`)

A store is an association list with in-place overwrite (one entry per
key, insertion order — Go map *content* is deterministic even though its
iteration order is not).  An `Environment` value is an index into `envs`;
its record holds an index into `stores` plus the optional outer
environment index.  `Closed` shares the store index exactly as the Go
code shares the map reference. -/

structure EnvData where
  store : Nat
  outer : Option Nat
  deriving Repr

structure St where
  stores : List (List (String × Option Object))
  envs : List EnvData

def storeSet (st : List (String × Option Object)) (k : String)
    (v : Option Object) : List (String × Option Object) :=
  match st with
  | [] => [(k, v)]
  | (k0, v0) :: rest =>
    if k0 = k then (k, v) :: rest else (k0, v0) :: storeSet rest k v

def storeGet (st : List (String × Option Object)) (k : String) :
    Option (Option Object) :=
  match st with
  | [] => none
  | (k0, v0) :: rest => if k0 = k then some v0 else storeGet rest k

/-- `object.NewEnvironment`: allocate a fresh store and environment;
returns the new environment reference. -/
def newEnvironment (σ : St) : Nat × St :=
  (σ.envs.length,
   { stores := σ.stores ++ [[]],
     envs := σ.envs ++ [⟨σ.stores.length, none⟩] })

/-- `object.NewEnclosedEnvironment`. -/
def newEnclosedEnvironment (σ : St) (outer : Nat) : Nat × St :=
  (σ.envs.length,
   { stores := σ.stores ++ [[]],
     envs := σ.envs ++ [⟨σ.stores.length, some outer⟩] })

def envData (σ : St) (e : Nat) : EnvData :=
  σ.envs.getD e ⟨0, none⟩

/-- Lookup in an environment's own store only. -/
def envOwnGet (σ : St) (e : Nat) (k : String) : Option (Option Object) :=
  storeGet (σ.stores.getD (envData σ e).store []) k

/-- `Environment.Get`: this store, else outer, recursively.  The chain
walk is fuelled; in every state the interpreter can construct, outer
references point to previously allocated environments, so
`σ.envs.length` fuel always suffices. -/
def envGetAux : Nat → St → Nat → String → Option (Option Object)
  | 0, _, _, _ => none
  | fuel + 1, σ, e, k =>
    match envOwnGet σ e k with
    | some v => some v
    | none =>
      match (envData σ e).outer with
      | some o => envGetAux fuel σ o k
      | none => none

def envGet (σ : St) (e : Nat) (k : String) : Option (Option Object) :=
  envGetAux (σ.envs.length + 1) σ e k

/-- `Environment.Set`: always writes to the current store. -/
def envSet (σ : St) (e : Nat) (k : String) (v : Option Object) : St :=
  let si := (envData σ e).store
  { σ with stores := σ.stores.set si (storeSet (σ.stores.getD si []) k v) }

/-- `Environment.Closed`: a new environment struct sharing the same
store map, with no outer. -/
def envClosed (σ : St) (e : Nat) : Nat × St :=
  (σ.envs.length,
   { σ with envs := σ.envs ++ [⟨(envData σ e).store, none⟩] })

/-- `Environment.SetOuter`. -/
def envSetOuter (σ : St) (e : Nat) (outer : Option Nat) : St :=
  { σ with envs := σ.envs.set e ⟨(envData σ e).store, outer⟩ }

/-- `Environment.GetOuter`. -/
def envGetOuter (σ : St) (e : Nat) : Option Nat :=
  (envData σ e).outer

/-- `Environment.ShallowCopy`: copy `src`'s own entries into `e`, skipping
keys that `e.Get` (full chain) already resolves. -/
def shallowCopyLoop (σ : St) (e : Nat) :
    List (String × Option Object) → St
  | [] => σ
  | (k, v) :: rest =>
    let σ := if (envGet σ e k).isSome then σ else envSet σ e k v
    shallowCopyLoop σ e rest

def shallowCopy (σ : St) (e src : Nat) : St :=
  shallowCopyLoop σ e (σ.stores.getD (envData σ src).store [])

/-! ## Evaluator (`evaluator` package) -/

/-- Evaluation outcomes: a Go `object.Object` result (which may be the
nil interface), a Go runtime panic, or a place where the embedding does
not determine the result (IEEE rounding of float arithmetic, pointer
identity of separately allocated objects, file-system imports).  No
theorem relies on an `undet` path. -/
inductive Outcome where
  | val (o : Option Object)
  | panicked (msg : String)
  | undet (msg : String)

/-- `evaluator.isError`. -/
def isErrorO : Option Object → Bool
  | some (.errorO _) => true
  | _ => false

/-- `evaluator.isTruthy`: all values are truthy except `NULL` and
`FALSE` (the singletons; every `Boolean`/`Null` the interpreter creates
is one of the singletons, so value comparison is faithful). -/
def isTruthy : Option Object → Bool
  | some .nullO => false
  | some (.boolO b) => b
  | _ => true

/-- The result of `evalExpressions`: the evaluated list, or the
short-circuited single-error slice / propagated abnormal outcome. -/
inductive ListRes where
  | objs (l : List (Option Object))
  | fail (o : Outcome)

/-- Go interface equality `left == right` as used by the `==`/`!=`
fallback: values of different dynamic types are never equal; `Boolean`
and `Null` are singleton pointers, so equality is value equality; for
any other pair of same-typed pointers the result depends on allocation
identity, which the embedding leaves undetermined (`none`).  No theorem
depends on a `none` case. -/
def goInterfaceEq : Option Object → Option Object → Option Bool
  | none, none => some true
  | none, some _ => some false
  | some _, none => some false
  | some a, some b =>
    if objType a ≠ objType b then some false
    else
      match a, b with
      | .boolO x, .boolO y => some (x = y)
      | .nullO, .nullO => some true
      | _, _ => none

/-- `evalIntegerInfixExpression` (both operands `Integer`).  `/` converts
both sides to `float64` and divides; the embedding does not model IEEE
division, so it is `undet`. -/
def evalIntegerInfix (op : String) (a b : Int) : Outcome :=
  if op = "+" then .val (some (.intO (i64 (a + b))))
  else if op = "-" then .val (some (.intO (i64 (a - b))))
  else if op = "*" then .val (some (.intO (i64 (a * b))))
  else if op = "/" then .undet "float64 division rounding not modelled"
  else if op = "<" then .val (some (.boolO (a < b)))
  else if op = ">" then .val (some (.boolO (b < a)))
  else if op = "==" then .val (some (.boolO (a = b)))
  else if op = "!=" then .val (some (.boolO (a ≠ b)))
  else .val (some (.errorO ("unknown operator: " ++ INTEGER_OBJ ++ " " ++ op ++ " " ++ INTEGER_OBJ)))

/-- `evalFloatInfixExpression` (both operands `Float`): comparisons on
exactly-held doubles are exact; arithmetic rounding is not modelled. -/
def evalFloatInfix (op : String) (a b : Int) : Outcome :=
  if op = "+" ∨ op = "-" ∨ op = "*" ∨ op = "/" then
    .undet "float64 arithmetic rounding not modelled"
  else if op = "<" then .val (some (.boolO (a < b)))
  else if op = ">" then .val (some (.boolO (b < a)))
  else if op = "==" then .val (some (.boolO (a = b)))
  else if op = "!=" then .val (some (.boolO (a ≠ b)))
  else .val (some (.errorO ("unknown operator: " ++ FLOAT_OBJ ++ " " ++ op ++ " " ++ FLOAT_OBJ)))

/-- `evalFloatIntegerInfixExpression`: each side is read as `float64`,
with `Integer` converted and anything else type-asserted to `*Float` —
a failed assertion is a Go panic. -/
def floatSideVal : Object → Option Int
  | .intO a => some (intToF64 a)
  | .floatO q => some q
  | _ => none

def evalFloatIntegerInfix (op : String) (l r : Object) : Outcome :=
  match floatSideVal l with
  | none => .panicked "interface conversion: object.Object is not *object.Float"
  | some a =>
    match floatSideVal r with
    | none => .panicked "interface conversion: object.Object is not *object.Float"
    | some b =>
      if op = "+" ∨ op = "-" ∨ op = "*" ∨ op = "/" then
        .undet "float64 arithmetic rounding not modelled"
      else if op = "<" then .val (some (.boolO (a < b)))
      else if op = ">" then .val (some (.boolO (b < a)))
      else if op = "==" then .val (some (.boolO (a = b)))
      else if op = "!=" then .val (some (.boolO (a ≠ b)))
      else .val (some (.errorO ("unknown operator: " ++ objType l ++ " " ++ op ++ " " ++ objType r)))

/-- `evalStringInfixExpression`. -/
def evalStringInfix (op : String) (a b : String) : Outcome :=
  if op = "+" then .val (some (.strO (a ++ b)))
  else .val (some (.errorO ("unknown operator: " ++ STRING_OBJ ++ " " ++ op ++ " " ++ STRING_OBJ)))

/-- `evalInfixExpression`, with the source's malformed mixed-dispatch
guard `(left.Type() == FLOAT && right.Type() == INT) || (right.Type() ==
FLOAT && right.Type() == FLOAT)` reproduced verbatim.  A nil operand
panics at the first `Type()` call on it. -/
def evalInfixOp (op : String) (l r : Option Object) : Outcome :=
  match l, r with
  | none, _ => .panicked "nil pointer dereference in Type()"
  | _, none => .panicked "nil pointer dereference in Type()"
  | some lo, some ro =>
    if objType lo = INTEGER_OBJ ∧ objType ro = INTEGER_OBJ then
      match lo, ro with
      | .intO a, .intO b => evalIntegerInfix op a b
      | _, _ => .panicked "unreachable"
    else if objType lo = FLOAT_OBJ ∧ objType ro = FLOAT_OBJ then
      match lo, ro with
      | .floatO a, .floatO b => evalFloatInfix op a b
      | _, _ => .panicked "unreachable"
    else if (objType lo = FLOAT_OBJ ∧ objType ro = INTEGER_OBJ) ∨
            (objType ro = FLOAT_OBJ ∧ objType ro = FLOAT_OBJ) then
      evalFloatIntegerInfix op lo ro
    else if op = "==" then
      match goInterfaceEq (some lo) (some ro) with
      | some b => .val (some (.boolO b))
      | none => .undet "pointer identity of distinct allocations"
    else if op = "!=" then
      match goInterfaceEq (some lo) (some ro) with
      | some b => .val (some (.boolO (¬b)))
      | none => .undet "pointer identity of distinct allocations"
    else if objType lo ≠ objType ro then
      .val (some (.errorO ("type mismatch: " ++ objType lo ++ " " ++ op ++ " " ++ objType ro)))
    else if objType lo = STRING_OBJ ∧ objType ro = STRING_OBJ then
      match lo, ro with
      | .strO a, .strO b => evalStringInfix op a b
      | _, _ => .panicked "unreachable"
    else
      .val (some (.errorO ("unknown operator: " ++ objType lo ++ " " ++ op ++ " " ++ objType ro)))

/-- `evalBangOperatorExpression`: singleton dispatch (`TRUE`/`FALSE`/
`NULL`), default `FALSE` — including for nil. -/
def evalBang : Option Object → Outcome
  | some (.boolO true) => .val (some (.boolO false))
  | some (.boolO false) => .val (some (.boolO true))
  | some .nullO => .val (some (.boolO true))
  | _ => .val (some (.boolO false))

/-- `evalMinusPrefixOperatorExpression`. -/
def evalMinusPre : Option Object → Outcome
  | none => .panicked "nil pointer dereference in Type()"
  | some (.intO v) => .val (some (.intO (i64 (-v))))
  | some o => .val (some (.errorO ("unknown operator: -" ++ objType o)))

/-- `evalPrefixExpression`. -/
def evalPreOp (op : String) (r : Option Object) : Outcome :=
  if op = "!" then evalBang r
  else if op = "-" then evalMinusPre r
  else
    match r with
    | none => .panicked "nil pointer dereference in Type()"
    | some o => .val (some (.errorO ("unknown operator: " ++ op ++ objType o)))

/-- `evalArrayIndexExpression`. -/
def evalArrayIndex (elems : List (Option Object)) (idx : Int) : Outcome :=
  let maxIdx : Int := (elems.length : Int) - 1
  if idx < 0 ∨ maxIdx < idx then .val (some .nullO)
  else .val (elems.getD idx.toNat none)

/-- Lookup in a `Hash`'s pair map. -/
def hashPairsGet (pairs : List (HashKey × Object × Option Object))
    (hk : HashKey) : Option (Object × Option Object) :=
  match pairs with
  | [] => none
  | (k0, pr) :: rest => if k0 = hk then some pr else hashPairsGet rest hk

/-- Overwriting insertion into a `Hash`'s pair map. -/
def hashPairsSet (pairs : List (HashKey × Object × Option Object))
    (hk : HashKey) (pr : Object × Option Object) :
    List (HashKey × Object × Option Object) :=
  match pairs with
  | [] => [(hk, pr)]
  | (k0, pr0) :: rest =>
    if k0 = hk then (hk, pr) :: rest else (k0, pr0) :: hashPairsSet rest hk pr

/-- `evalHashIndexExpression`. -/
def evalHashIndex (pairs : List (HashKey × Object × Option Object))
    (idx : Option Object) : Outcome :=
  match idx with
  | none => .panicked "nil pointer dereference in Type()"
  | some io =>
    match hashKeyOf io with
    | none => .val (some (.errorO ("unusable as hash key: " ++ objType io)))
    | some hk =>
      match hashPairsGet pairs hk with
      | none => .val (some .nullO)
      | some (_, v) => .val v

/-- `evalIndexExpression` (`&&` short-circuit: the index's `Type()` is
only reached when the left side is an `Array`). -/
def evalIndexOp (l idx : Option Object) : Outcome :=
  match l with
  | none => .panicked "nil pointer dereference in Type()"
  | some (.arrayO elems) =>
    match idx with
    | none => .panicked "nil pointer dereference in Type()"
    | some (.intO n) => evalArrayIndex elems n
    | some _ =>
      .val (some (.errorO ("index operator not supported: " ++ ARRAY_OBJ)))
  | some (.hashO pairs) => evalHashIndex pairs idx
  | some o => .val (some (.errorO ("index operator not supported: " ++ objType o)))

/-- The `builtins` table's domain. -/
def builtinsHas (name : String) : Bool :=
  ["str", "env", "len", "first", "last", "rest", "push", "puts",
   "hasattr", "setattr"].contains name

/-- `evalIdentifier`: built-ins take precedence over every user binding;
then the environment chain; else the name error. -/
def evalIdentF (name : String) (e : Nat) (σ : St) : Outcome :=
  if builtinsHas name then .val (some (.builtinO name))
  else
    match envGet σ e name with
    | some v => .val v
    | none => .val (some (.errorO ("identifier not found: " ++ name)))

/-- `extendFunctionEnv`: a fresh enclosed environment with the parameters
bound positionally; fewer arguments than parameters is an out-of-range
slice index, i.e. a Go panic (`none`). -/
def extendFunctionEnv (σ : St) (fenv : Nat) (params : List String)
    (args : List (Option Object)) : Option (Nat × St) :=
  if args.length < params.length then none
  else
    let (e, σ) := newEnclosedEnvironment σ fenv
    some (e, (params.zip args).foldl (fun σ2 kv => envSet σ2 e kv.1 kv.2) σ)

/-- `unwrapReturnValue`. -/
def unwrapReturnValue : Option Object → Option Object
  | some (.returnO v) => v
  | o => o

/-- The built-in functions (`builtinobjects.go`).  They never re-enter
the evaluator; `puts`/`env` printing is a no-op here.  Note the faithful
bugs: `hasattr` type-asserts `args[0]` twice, and `setattr`'s arity
message says `want=2`. -/
def callBuiltin (name : String) (args : List (Option Object)) (σ : St) :
    Outcome × St :=
  if name = "str" then
    if args.length ≠ 1 then
      (.val (some (.errorO ("wrong number of arguments. to str got=" ++
        natRepr args.length ++ ", want=1"))), σ)
    else
      match args.getD 0 none with
      | none => (.panicked "nil pointer dereference in Inspect()", σ)
      | some o => (.val (some (.strO (inspect o))), σ)
  else if name = "env" then
    if args.length ≠ 1 then
      (.val (some (.errorO ("wrong number of arguments. to str got=" ++
        natRepr args.length ++ ", want=1"))), σ)
    else (.val (some .nullO), σ)
  else if name = "len" then
    if args.length ≠ 1 then
      (.val (some (.errorO ("wrong number of arguments. got=" ++
        natRepr args.length ++ ", want=1"))), σ)
    else
      match args.getD 0 none with
      | some (.arrayO elems) => (.val (some (.intO (elems.length : Int))), σ)
      | some (.strO s) => (.val (some (.intO ((strBytes s).length : Int))), σ)
      | some o =>
        (.val (some (.errorO ("argument to `len` not supported, got " ++ objType o))), σ)
      | none => (.panicked "nil pointer dereference in Type()", σ)
  else if name = "first" then
    if args.length ≠ 1 then
      (.val (some (.errorO ("wrong number of arguments. got=" ++
        natRepr args.length ++ ", want=1"))), σ)
    else
      match args.getD 0 none with
      | none => (.panicked "nil pointer dereference in Type()", σ)
      | some (.arrayO elems) =>
        (match elems with
         | [] => (.val (some .nullO), σ)
         | x :: _ => (.val x, σ))
      | some o =>
        (.val (some (.errorO ("argument to `first` must be ARRAY, got " ++ objType o))), σ)
  else if name = "last" then
    if args.length ≠ 1 then
      (.val (some (.errorO ("wrong number of arguments. got=" ++
        natRepr args.length ++ ", want=1"))), σ)
    else
      match args.getD 0 none with
      | none => (.panicked "nil pointer dereference in Type()", σ)
      | some (.arrayO elems) =>
        (match elems.getLast? with
         | none => (.val (some .nullO), σ)
         | some x => (.val x, σ))
      | some o =>
        (.val (some (.errorO ("argument to `last` must be ARRAY, got " ++ objType o))), σ)
  else if name = "rest" then
    if args.length ≠ 1 then
      (.val (some (.errorO ("wrong number of arguments. got=" ++
        natRepr args.length ++ ", want=1"))), σ)
    else
      match args.getD 0 none with
      | none => (.panicked "nil pointer dereference in Type()", σ)
      | some (.arrayO elems) =>
        (match elems with
         | [] => (.val (some .nullO), σ)
         | _ :: rest => (.val (some (.arrayO rest)), σ))
      | some o =>
        (.val (some (.errorO ("argument to `rest` must be ARRAY, got " ++ objType o))), σ)
  else if name = "push" then
    if args.length ≠ 2 then
      (.val (some (.errorO ("wrong number of arguments. got=" ++
        natRepr args.length ++ ", want=2"))), σ)
    else
      match args.getD 0 none with
      | none => (.panicked "nil pointer dereference in Type()", σ)
      | some (.arrayO elems) =>
        (.val (some (.arrayO (elems ++ [args.getD 1 none]))), σ)
      | some o =>
        (.val (some (.errorO ("first argument to `push` must be ARRAY, got " ++ objType o))), σ)
  else if name = "puts" then
    if args.any (·.isNone) then
      (.panicked "nil pointer dereference in Inspect()", σ)
    else (.val (some .nullO), σ)
  else if name = "hasattr" then
    if args.length ≠ 2 then
      (.val (some (.errorO ("wrong number of arguments. got=" ++
        natRepr args.length ++ ", want=2"))), σ)
    else
      match args.getD 0 none with
      | some (.instanceO _ _) =>
        -- faithful bug: the second assertion also inspects args[0],
        -- which is a ClassInstance, never a String
        (.val (some (.errorO "Argument 2 must be a `STRING`")), σ)
      | _ => (.val (some (.errorO "Argument 1 must be a `CLASSINSTANCE`")), σ)
  else if name = "setattr" then
    if args.length ≠ 3 then
      (.val (some (.errorO ("wrong number of arguments. got=" ++
        natRepr args.length ++ ", want=2"))), σ)
    else
      match args.getD 0 none with
      | some (.instanceO _ ienv) =>
        (match args.getD 1 none with
         | some (.strO s) =>
           (.val (args.getD 2 none), envSet σ ienv s (args.getD 2 none))
         | _ => (.val (some (.errorO "Argument 2 must be a `STRING`")), σ))
      | _ => (.val (some (.errorO "Argument 1 must be a `CLASSINSTANCE`")), σ)
  else (.panicked "unknown builtin", σ)

/-! ### The recursive evaluator (`Eval` and its helpers), fuelled.

The mutually recursive helpers of the Go evaluator are the cases of one
task type, dispatched by a single function that recurses structurally on
the fuel (so that the kernel can evaluate closed runs); the named
wrappers after the definition restore the Go signatures. -/

/-- One pending call into the evaluator: each constructor is one of the
Go evaluator's mutually recursive functions (with its loop state). -/
inductive Task where
  | stmtT (s : Stmt)
  | exprT (x : Expr)
  | progLoopT (stmts : List Stmt) (result : Option Object)
  | blockLoopT (stmts : List Stmt) (result : Option Object)
  | classBlockLoopT (stmts : List Stmt) (result : Option Object)
  | classParentsT (parents : List String) (newEnv : Nat)
  | exprListT (xs : List Expr)
  | hashLoopT (pairs : List (Expr × Expr))
      (acc : List (HashKey × Object × Option Object))
  | whileLoopT (cond : Expr) (body : List Stmt) (result : Option Object)
  | applyFnT (fn : Option Object) (args : List (Option Object))
  | applyMethT (fn : Option Object) (left : Object) (args : List (Option Object))
  | dotT (left : Option Object) (right : Expr)
  | classDotT (iname : String) (ienv : Nat) (right : Expr)
  | moduleDotT (menv : Nat) (right : Expr)

/-- The result of a task: an evaluation outcome, an `evalExpressions`
result, or the class-parents loop's early-return-or-done. -/
inductive Res where
  | out (o : Outcome)
  | list (l : ListRes)
  | parentsRes (r : Outcome ⊕ Unit)

/-- The evaluator.  Each `Task` case transcribes the corresponding Go
function; every recursive call decrements the fuel. -/
def exec (fuel : Nat) (t : Task) (e : Nat) (σ : St) : Option (Res × St) :=
  match fuel with
  | 0 => none
  | fuel + 1 =>
    match t with
    -- `Eval` on statement nodes (`LetStatement`, `ReturnStatement`,
    -- `ExpressionStatement`, plus the typed-nil statement).
    | .stmtT s =>
      match s with
      | .letS name property value =>
        (match exec fuel (.exprT value) e σ with
         | some (.out (.panicked m), σ) => some (.out (.panicked m), σ)
         | some (.out (.undet m), σ) => some (.out (.undet m), σ)
         | some (.out (.val v), σ) =>
           if isErrorO v then some (.out (.val v), σ)
           else
             (match property with
              | none => some (.out (.val none), envSet σ e name v)
              | some prop =>
                -- node.Property is always an *ast.Identifier here, so
                -- the source's conversion check never fails
                match envGet σ e name with
                | none =>
                  some (.out (.val (some (.errorO ("unknown identifier: " ++ name)))), σ)
                | some cls =>
                  match cls with
                  | some (.instanceO iname ienv) =>
                    (match envGet σ ienv prop with
                     | none =>
                       some (.out (.val (some (.errorO (prop ++
                         " is not an instance variable of class " ++
                         inspect (.instanceO iname ienv))))), σ)
                     | some _ => some (.out (.val none), envSet σ ienv prop v))
                  | _ =>
                    some (.out (.val (some (.errorO
                      ("Dot assignment allowed only on class Instances.Cannot use dot assignment on "
                        ++ goTypeName cls ++ ": " ++ name)))), σ))
         | _ => none)
      | .returnS value =>
        (match exec fuel (.exprT value) e σ with
         | some (.out (.panicked m), σ) => some (.out (.panicked m), σ)
         | some (.out (.undet m), σ) => some (.out (.undet m), σ)
         | some (.out (.val v), σ) =>
           if isErrorO v then some (.out (.val v), σ)
           else some (.out (.val (some (.returnO v))), σ)
         | _ => none)
      | .exprS ex => exec fuel (.exprT ex) e σ
      | .badStmt => some (.out (.panicked "nil *ast.LetStatement dereference"), σ)
    -- `Eval` on expression nodes.
    | .exprT x =>
      match x with
      | .nilE => some (.out (.val none), σ)
      | .ident n => some (.out (evalIdentF n e σ), σ)
      | .intLit v => some (.out (.val (some (.intO v))), σ)
      | .floatLit q => some (.out (.val (some (.floatO q))), σ)
      | .boolLit b => some (.out (.val (some (.boolO b))), σ)
      | .strLit s => some (.out (.val (some (.strO s))), σ)
      | .hashLit pairs => exec fuel (.hashLoopT pairs []) e σ
      | .arrayLit elems =>
        (match exec fuel (.exprListT elems) e σ with
         | some (.list (.fail o), σ) => some (.out o, σ)
         | some (.list (.objs l), σ) => some (.out (.val (some (.arrayO l))), σ)
         | _ => none)
      | .indexE le ie =>
        (match exec fuel (.exprT le) e σ with
         | some (.out (.panicked m), σ) => some (.out (.panicked m), σ)
         | some (.out (.undet m), σ) => some (.out (.undet m), σ)
         | some (.out (.val l), σ) =>
           if isErrorO l then some (.out (.val l), σ)
           else
             (match exec fuel (.exprT ie) e σ with
              | some (.out (.panicked m), σ) => some (.out (.panicked m), σ)
              | some (.out (.undet m), σ) => some (.out (.undet m), σ)
              | some (.out (.val i), σ) =>
                if isErrorO i then some (.out (.val i), σ)
                else some (.out (evalIndexOp l i), σ)
              | _ => none)
         | _ => none)
      | .preOp op r =>
        (match exec fuel (.exprT r) e σ with
         | some (.out (.panicked m), σ) => some (.out (.panicked m), σ)
         | some (.out (.undet m), σ) => some (.out (.undet m), σ)
         | some (.out (.val rv), σ) =>
           if isErrorO rv then some (.out (.val rv), σ)
           else some (.out (evalPreOp op rv), σ)
         | _ => none)
      | .binOp op le re =>
        if op = "." then
          match exec fuel (.exprT le) e σ with
          | some (.out (.panicked m), σ) => some (.out (.panicked m), σ)
          | some (.out (.undet m), σ) => some (.out (.undet m), σ)
          | some (.out (.val l), σ) =>
            if isErrorO l then some (.out (.val l), σ)
            else exec fuel (.dotT l re) e σ
          | _ => none
        else
          match exec fuel (.exprT le) e σ with
          | some (.out (.panicked m), σ) => some (.out (.panicked m), σ)
          | some (.out (.undet m), σ) => some (.out (.undet m), σ)
          | some (.out (.val l), σ) =>
            if isErrorO l then some (.out (.val l), σ)
            else
              (match exec fuel (.exprT re) e σ with
               | some (.out (.panicked m), σ) => some (.out (.panicked m), σ)
               | some (.out (.undet m), σ) => some (.out (.undet m), σ)
               | some (.out (.val r), σ) =>
                 if isErrorO r then some (.out (.val r), σ)
                 else some (.out (evalInfixOp op l r), σ)
               | _ => none)
          | _ => none
      | .ifE cond cons alt =>
        (match exec fuel (.exprT cond) e σ with
         | some (.out (.panicked m), σ) => some (.out (.panicked m), σ)
         | some (.out (.undet m), σ) => some (.out (.undet m), σ)
         | some (.out (.val c), σ) =>
           if isErrorO c then some (.out (.val c), σ)
           else if isTruthy c then exec fuel (.blockLoopT cons none) e σ
           else
             (match alt with
              | some a => exec fuel (.blockLoopT a none) e σ
              | none => some (.out (.val (some .nullO)), σ))
         | _ => none)
      | .whileE cond body => exec fuel (.whileLoopT cond body (some .nullO)) e σ
      | .fnLit params body => some (.out (.val (some (.functionO params body e))), σ)
      | .callE f argEs =>
        (match exec fuel (.exprT f) e σ with
         | some (.out (.panicked m), σ) => some (.out (.panicked m), σ)
         | some (.out (.undet m), σ) => some (.out (.undet m), σ)
         | some (.out (.val fo), σ) =>
           if isErrorO fo then some (.out (.val fo), σ)
           else
             (match exec fuel (.exprListT argEs) e σ with
              | some (.list (.fail o), σ) => some (.out o, σ)
              | some (.list (.objs l), σ) => exec fuel (.applyFnT fo l) e σ
              | _ => none)
         | _ => none)
      | .classE name parents body =>
        let newσ := newEnclosedEnvironment σ e
        let newEnv := newσ.1
        (match exec fuel (.classParentsT parents newEnv) e newσ.2 with
         | some (.parentsRes (.inl out), σ) => some (.out out, σ)
         | some (.parentsRes (.inr _), σ) =>
           (match exec fuel (.classBlockLoopT body none) newEnv σ with
            | some (.out (.panicked m), σ) => some (.out (.panicked m), σ)
            | some (.out (.undet m), σ) => some (.out (.undet m), σ)
            | some (.out (.val _), σ) =>
              -- the class block's result (errors included) is discarded
              some (.out (.val (some (.classO name newEnv))),
                    envSet σ e name (some (.classO name newEnv)))
            | _ => none)
         | _ => none)
      | .importE _ _ => some (.out (.undet "module import reads the file system"), σ)
    -- The parent loop of the `ClassStatement` arm: each parent
    -- identifier is evaluated in the outer scope and must be a `Class`;
    -- its bindings are shallow-copied into the class environment.
    | .classParentsT parents newEnv =>
      (match parents with
       | [] => some (.parentsRes (.inr ()), σ)
       | pn :: rest =>
         match exec fuel (.exprT (.ident pn)) e σ with
         | some (.out (.panicked m), σ) => some (.parentsRes (.inl (.panicked m)), σ)
         | some (.out (.undet m), σ) => some (.parentsRes (.inl (.undet m)), σ)
         | some (.out (.val v), σ) =>
           (match v with
            | some (.classO _ penv) =>
              exec fuel (.classParentsT rest newEnv) e (shallowCopy σ newEnv penv)
            | _ =>
              some (.parentsRes (.inl (.val (some (.errorO
                ("parent to be inherited from must be a class. got " ++
                  goTypeName v))))), σ))
         | _ => none)
    -- `evalProgram`: statements in order; `ReturnValue` unwraps,
    -- `Error` returns; the last result is the program's value.
    | .progLoopT stmts result =>
      (match stmts with
       | [] => some (.out (.val result), σ)
       | s :: rest =>
         match exec fuel (.stmtT s) e σ with
         | some (.out (.panicked m), σ) => some (.out (.panicked m), σ)
         | some (.out (.undet m), σ) => some (.out (.undet m), σ)
         | some (.out (.val v), σ) =>
           (match v with
            | some (.returnO rv) => some (.out (.val rv), σ)
            | some (.errorO m) => some (.out (.val (some (.errorO m))), σ)
            | _ => exec fuel (.progLoopT rest v) e σ)
         | _ => none)
    -- `evalBlockStatement`: like the program loop, but `ReturnValue`
    -- and `Error` results are returned unwrapped.
    | .blockLoopT stmts result =>
      (match stmts with
       | [] => some (.out (.val result), σ)
       | s :: rest =>
         match exec fuel (.stmtT s) e σ with
         | some (.out (.panicked m), σ) => some (.out (.panicked m), σ)
         | some (.out (.undet m), σ) => some (.out (.undet m), σ)
         | some (.out (.val v), σ) =>
           (match v with
            | some o =>
              if objType o = RETURN_VALUE_OBJ ∨ objType o = ERROR_OBJ then
                some (.out (.val v), σ)
              else exec fuel (.blockLoopT rest v) e σ
            | none => exec fuel (.blockLoopT rest none) e σ)
         | _ => none)
    -- `evalClassBlockStatement`: a block loop that, whenever a
    -- statement's *result* is a `Function` object, rewrites that
    -- function's captured environment's outer pointer to the class
    -- environment's own outer.  A `let` statement's `Eval` result is Go
    -- nil, so let-bound functions never reach this branch.
    | .classBlockLoopT stmts result =>
      (match stmts with
       | [] => some (.out (.val result), σ)
       | s :: rest =>
         match exec fuel (.stmtT s) e σ with
         | some (.out (.panicked m), σ) => some (.out (.panicked m), σ)
         | some (.out (.undet m), σ) => some (.out (.undet m), σ)
         | some (.out (.val v), σ) =>
           (match v with
            | some o =>
              if objType o = RETURN_VALUE_OBJ ∨ objType o = ERROR_OBJ then
                some (.out (.val v), σ)
              else
                let σ2 :=
                  match o with
                  | .functionO _ _ fenv => envSetOuter σ fenv (envGetOuter σ e)
                  | _ => σ
                exec fuel (.classBlockLoopT rest v) e σ2
            | none => exec fuel (.classBlockLoopT rest none) e σ)
         | _ => none)
    -- `evalExpressions`: left to right, first error short-circuits.
    | .exprListT xs =>
      (match xs with
       | [] => some (.list (.objs []), σ)
       | ex :: rest =>
         match exec fuel (.exprT ex) e σ with
         | some (.out (.panicked m), σ) => some (.list (.fail (.panicked m)), σ)
         | some (.out (.undet m), σ) => some (.list (.fail (.undet m)), σ)
         | some (.out (.val v), σ) =>
           if isErrorO v then some (.list (.fail (.val v)), σ)
           else
             (match exec fuel (.exprListT rest) e σ with
              | some (.list (.fail o), σ) => some (.list (.fail o), σ)
              | some (.list (.objs l), σ) => some (.list (.objs (v :: l)), σ)
              | _ => none)
         | _ => none)
    -- `evalHashLiteral`'s pair loop: evaluate key, require hashability
    -- (error names the key's type, panicking on a nil key), evaluate
    -- value, insert.
    | .hashLoopT pairs acc =>
      (match pairs with
       | [] => some (.out (.val (some (.hashO acc))), σ)
       | (ke, ve) :: rest =>
         match exec fuel (.exprT ke) e σ with
         | some (.out (.panicked m), σ) => some (.out (.panicked m), σ)
         | some (.out (.undet m), σ) => some (.out (.undet m), σ)
         | some (.out (.val kv), σ) =>
           if isErrorO kv then some (.out (.val kv), σ)
           else
             (match kv with
              | none => some (.out (.panicked "nil pointer dereference in Type()"), σ)
              | some ko =>
                match hashKeyOf ko with
                | none =>
                  some (.out (.val (some (.errorO
                    ("unusable as a hash key: " ++ objType ko)))), σ)
                | some hk =>
                  match exec fuel (.exprT ve) e σ with
                  | some (.out (.panicked m), σ) => some (.out (.panicked m), σ)
                  | some (.out (.undet m), σ) => some (.out (.undet m), σ)
                  | some (.out (.val vv), σ) =>
                    if isErrorO vv then some (.out (.val vv), σ)
                    else exec fuel (.hashLoopT rest (hashPairsSet acc hk (ko, vv))) e σ
                  | _ => none)
         | _ => none)
    -- `evalWhileExpression`'s loop: condition errors return; a truthy
    -- condition evaluates the body (nil becomes `NULL`) and loops —
    -- note the body's result, `Error` included, does NOT break the
    -- loop; a falsy condition yields the last body result.
    | .whileLoopT cond body result =>
      (match exec fuel (.exprT cond) e σ with
       | some (.out (.panicked m), σ) => some (.out (.panicked m), σ)
       | some (.out (.undet m), σ) => some (.out (.undet m), σ)
       | some (.out (.val c), σ) =>
         if isErrorO c then some (.out (.val c), σ)
         else if isTruthy c then
           match exec fuel (.blockLoopT body none) e σ with
           | some (.out (.panicked m), σ) => some (.out (.panicked m), σ)
           | some (.out (.undet m), σ) => some (.out (.undet m), σ)
           | some (.out (.val v), σ) =>
             exec fuel
               (.whileLoopT cond body
                 (match v with | none => some .nullO | some o => some o)) e σ
           | _ => none
         else some (.out (.val result), σ)
       | _ => none)
    -- `applyFunction`: builtins first, then user functions, then
    -- classes (whose instances share the class environment object and
    -- run `__New__` as a method, discarding its result), else the
    -- not-a-function error.
    | .applyFnT fn args =>
      (match fn with
       | some (.builtinO name) =>
         (match callBuiltin name args σ with
          | (o, σ) => some (.out o, σ))
       | some (.functionO params body fenv) =>
         (match extendFunctionEnv σ fenv params args with
          | none => some (.out (.panicked "index out of range in extendFunctionEnv"), σ)
          | some (e2, σ) =>
            match exec fuel (.blockLoopT body none) e2 σ with
            | some (.out (.panicked m), σ) => some (.out (.panicked m), σ)
            | some (.out (.undet m), σ) => some (.out (.undet m), σ)
            | some (.out (.val v), σ) => some (.out (.val (unwrapReturnValue v)), σ)
            | _ => none)
       | some (.classO name cenv) =>
         (match envGet σ cenv "__New__" with
          | some (some nv) =>
            if objType nv = FUNCTION_OBJ then
              match exec fuel (.applyMethT (some nv) (.instanceO name cenv) args) e σ with
              | some (.out (.panicked m), σ) => some (.out (.panicked m), σ)
              | some (.out (.undet m), σ) => some (.out (.undet m), σ)
              | some (.out (.val _), σ) =>
                some (.out (.val (some (.instanceO name cenv))), σ)
              | _ => none
            else some (.out (.val (some (.instanceO name cenv))), σ)
          | some none => some (.out (.panicked "nil pointer dereference in Type()"), σ)
          | none => some (.out (.val (some (.instanceO name cenv))), σ))
       | none => some (.out (.panicked "nil pointer dereference in Type()"), σ)
       | some o =>
         some (.out (.val (some (.errorO ("not a function: " ++ objType o)))), σ))
    -- `applyMethod`: function application that additionally binds
    -- `self` to the receiver when the receiver is a class instance.
    | .applyMethT fn left args =>
      (match fn with
       | some (.functionO params body fenv) =>
         (match extendFunctionEnv σ fenv params args with
          | none => some (.out (.panicked "index out of range in extendFunctionEnv"), σ)
          | some (e2, σ) =>
            let σ2 :=
              match left with
              | .instanceO _ _ => envSet σ e2 "self" (some left)
              | _ => σ
            match exec fuel (.blockLoopT body none) e2 σ2 with
            | some (.out (.panicked m), σ) => some (.out (.panicked m), σ)
            | some (.out (.undet m), σ) => some (.out (.undet m), σ)
            | some (.out (.val v), σ) => some (.out (.val (unwrapReturnValue v)), σ)
            | _ => none)
       | none => some (.out (.panicked "nil pointer dereference in Type()"), σ)
       | some o =>
         some (.out (.val (some (.errorO ("not a function: " ++ objType o)))), σ))
    -- `evalDotInfixExpression`: dispatch on the left value (a nil left
    -- panics at the `Type()` call inside the error constructor; the
    -- default renders `%T` of an `object.ObjectType` value, the
    -- constant string `object.ObjectType`).
    | .dotT left right =>
      (match left with
       | some (.instanceO iname ienv) => exec fuel (.classDotT iname ienv right) e σ
       | some (.moduleO _ menv) => exec fuel (.moduleDotT menv right) e σ
       | none => some (.out (.panicked "nil pointer dereference in Type()"), σ)
       | some _ =>
         some (.out (.val (some
           (.errorO "Dot operation not supported for object.ObjectType"))), σ))
    -- `evalClassDotOperation`: resolve the member in a `Closed` copy of
    -- the instance environment; calls become method calls (binding
    -- `self`), identifiers are plain lookups (so built-ins still take
    -- precedence there).
    | .classDotT iname ienv right =>
      (match right with
       | .callE fnExpr argEs =>
         let ceσ := envClosed σ ienv
         (match exec fuel (.exprT fnExpr) ceσ.1 ceσ.2 with
          | some (.out (.panicked m), σ) => some (.out (.panicked m), σ)
          | some (.out (.undet m), σ) => some (.out (.undet m), σ)
          | some (.out (.val f), σ) =>
            if isErrorO f then some (.out (.val f), σ)
            else
              (match exec fuel (.exprListT argEs) e σ with
               | some (.list (.fail o), σ) => some (.out o, σ)
               | some (.list (.objs l), σ) =>
                 exec fuel (.applyMethT f (.instanceO iname ienv) l) e σ
               | _ => none)
          | _ => none)
       | .ident nm =>
         let ceσ := envClosed σ ienv
         exec fuel (.exprT (.ident nm)) ceσ.1 ceσ.2
       | _ => some (.out (.val (some (.errorO "Cannot perform Dot operation"))), σ))
    -- `evalModuleDotOperation`: like the class case but with plain
    -- function application (no `self`).
    | .moduleDotT menv right =>
      (match right with
       | .callE fnExpr argEs =>
         let ceσ := envClosed σ menv
         (match exec fuel (.exprT fnExpr) ceσ.1 ceσ.2 with
          | some (.out (.panicked m), σ) => some (.out (.panicked m), σ)
          | some (.out (.undet m), σ) => some (.out (.undet m), σ)
          | some (.out (.val f), σ) =>
            if isErrorO f then some (.out (.val f), σ)
            else
              (match exec fuel (.exprListT argEs) e σ with
               | some (.list (.fail o), σ) => some (.out o, σ)
               | some (.list (.objs l), σ) => exec fuel (.applyFnT f l) e σ
               | _ => none)
          | _ => none)
       | .ident nm =>
         let ceσ := envClosed σ menv
         exec fuel (.exprT (.ident nm)) ceσ.1 ceσ.2
       | _ => some (.out (.val (some (.errorO "Cannot perform Dot operation"))), σ))

/-! ### Named wrappers restoring the Go signatures -/

/-- `Eval` on a statement node. -/
def evalStmt (fuel : Nat) (s : Stmt) (e : Nat) (σ : St) :
    Option (Outcome × St) :=
  match exec fuel (.stmtT s) e σ with
  | some (.out o, σ2) => some (o, σ2)
  | _ => none

/-- `Eval` on an expression node. -/
def evalExpr (fuel : Nat) (x : Expr) (e : Nat) (σ : St) :
    Option (Outcome × St) :=
  match exec fuel (.exprT x) e σ with
  | some (.out o, σ2) => some (o, σ2)
  | _ => none

/-- `evalProgram`. -/
def evalProgramLoop (fuel : Nat) (stmts : List Stmt) (e : Nat) (σ : St)
    (result : Option Object) : Option (Outcome × St) :=
  match exec fuel (.progLoopT stmts result) e σ with
  | some (.out o, σ2) => some (o, σ2)
  | _ => none

/-- `evalBlockStatement`. -/
def evalBlockLoop (fuel : Nat) (stmts : List Stmt) (e : Nat) (σ : St)
    (result : Option Object) : Option (Outcome × St) :=
  match exec fuel (.blockLoopT stmts result) e σ with
  | some (.out o, σ2) => some (o, σ2)
  | _ => none

/-- `evalWhileExpression`'s loop. -/
def evalWhileLoop (fuel : Nat) (cond : Expr) (body : List Stmt) (e : Nat)
    (σ : St) (result : Option Object) : Option (Outcome × St) :=
  match exec fuel (.whileLoopT cond body result) e σ with
  | some (.out o, σ2) => some (o, σ2)
  | _ => none

/-- `applyFunction` (its Go signature has no environment parameter; the
dispatcher's environment argument is unused in that task). -/
def applyFunctionF (fuel : Nat) (fn : Option Object)
    (args : List (Option Object)) (σ : St) : Option (Outcome × St) :=
  match exec fuel (.applyFnT fn args) 0 σ with
  | some (.out o, σ2) => some (o, σ2)
  | _ => none

/-- `applyMethod`. -/
def applyMethodF (fuel : Nat) (fn : Option Object) (left : Object)
    (args : List (Option Object)) (σ : St) : Option (Outcome × St) :=
  match exec fuel (.applyMethT fn left args) 0 σ with
  | some (.out o, σ2) => some (o, σ2)
  | _ => none

/-- The fresh root environment (`object.NewEnvironment()` in `main.go`). -/
def initialState : St := { stores := [[]], envs := [⟨0, none⟩] }

/-- Parse a source string and evaluate the program in a fresh
environment (as `main.go` does; it aborts on parser errors, so theorems
about evaluation pair with the assertion that `parseSource src` has no
errors). -/
def runProgram (src : String) (fuel : Nat) : Option (Outcome × St) :=
  evalProgramLoop fuel (parseSource src).1 0 initialState none

/-- The final outcome of a program run. -/
def runOutcome (src : String) (fuel : Nat) : Option Outcome :=
  (runProgram src fuel).map Prod.fst

/-! ## Shared helper lemmas -/

/-- A value that `isError` accepts is an `Error` object. -/
theorem isErrorO_true {v : Option Object} (h : isErrorO v = true) :
    ∃ m, v = some (.errorO m) := by
  rcases v with _ | o
  · simp [isErrorO] at h
  · cases o <;> simp [isErrorO] at h ⊢

/-! ## Claims -/

/-- C1, counterexample: the program
`let i = 0; while (i < 3) { let i = i + 1 } i` does NOT evaluate to
`Int 0`: it evaluates to `Int 3`, because the while body's `let` writes
into the same environment as the outer binding. -/
theorem C1_counterexample :
    runOutcome "let i = 0; while (i < 3) \x7b let i = i + 1 \x7d i" 13 =
      some (.val (some (.intO 3))) ∧
    Object.intO 3 ≠ Object.intO 0 :=
  ⟨rfl, by simp⟩

/-- C1, amended: the program parses cleanly and evaluates to `Int 3`.
`evalWhileExpression` evaluates the body with the same environment it was
given (no per-block environment is ever created), so the body's
`let i = i + 1` overwrites the outer `i`, which is 3 when the loop
finishes — as the final root environment shows. -/
theorem C1_theorem :
    (parseSource "let i = 0; while (i < 3) \x7b let i = i + 1 \x7d i").2 = [] ∧
    runOutcome "let i = 0; while (i < 3) \x7b let i = i + 1 \x7d i" 13 =
      some (.val (some (.intO 3))) ∧
    (runProgram "let i = 0; while (i < 3) \x7b let i = i + 1 \x7d i" 13).map
      (fun p => envGet p.2 0 "i") = some (some (some (.intO 3))) :=
  ⟨rfl, rfl, rfl⟩

/-- C2, counterexample: the program
`class A(){ let __New__ = fn(){ let self.x = 7 } } let a = A(); a.x`
does NOT evaluate to `Int 7`: it evaluates to
`Error "identifier not found: x"`. -/
theorem C2_counterexample :
    runOutcome
      "class A()\x7b let __New__ = fn()\x7b let self.x = 7 \x7d \x7d let a = A(); a.x" 11 =
      some (.val (some (.errorO "identifier not found: x"))) ∧
    Object.errorO "identifier not found: x" ≠ Object.intO 7 :=
  ⟨rfl, by simp⟩

/-- C2, amended: a dotted `let self.x = ...` requires `x` to already
exist in the instance environment, even inside `__New__`; in the claim's
program the constructor's error is discarded by `applyFunction`'s Class
arm and `a.x` then fails with `Error "identifier not found: x"`.  With
the property pre-declared (`let x = 0` in the class body) the same
program yields `Int 7`. -/
theorem C2_theorem :
    (parseSource
      "class A()\x7b let __New__ = fn()\x7b let self.x = 7 \x7d \x7d let a = A(); a.x").2 = [] ∧
    runOutcome
      "class A()\x7b let __New__ = fn()\x7b let self.x = 7 \x7d \x7d let a = A(); a.x" 11 =
      some (.val (some (.errorO "identifier not found: x"))) ∧
    runOutcome
      "class A()\x7b let x = 0 let __New__ = fn()\x7b let self.x = 7 \x7d \x7d let a = A(); a.x"
      11 = some (.val (some (.intO 7))) :=
  ⟨rfl, rfl, rfl⟩

/-- Helper for C3: `Eval` of a `let` statement never produces a
`Function` object as its result — it returns Go nil, an `Error`, a
panic, or an undetermined outcome — so `evalClassBlockStatement`'s
`FUNCTION` rewrite branch can never fire for a `let`-bound function. -/
theorem execLetNeverFunction : ∀ (n : Nat) (name : String) (prop : Option String)
    (value : Expr) (e : Nat) (σ : St) (out : Outcome) (σ2 : St),
    exec n (.stmtT (.letS name prop value)) e σ = some (.out out, σ2) →
    ∀ (ps : List String) (bd : List Stmt) (fe : Nat),
      out ≠ .val (some (.functionO ps bd fe)) := by
  intro n name prop value e σ out σ2 h ps bd fe
  cases n with
  | zero => simp [exec] at h
  | succ m =>
    cases prop with
    | none =>
      have hstep : exec (m + 1) (.stmtT (.letS name none value)) e σ =
          (match exec m (.exprT value) e σ with
           | some (.out (.panicked msg), σ3) => some (.out (.panicked msg), σ3)
           | some (.out (.undet msg), σ3) => some (.out (.undet msg), σ3)
           | some (.out (.val v), σ3) =>
             if isErrorO v then some (.out (.val v), σ3)
             else some (.out (.val none), envSet σ3 e name v)
           | _ => none) := rfl
      rw [hstep] at h
      clear hstep
      repeat' split at h
      all_goals
        try simp only [Option.some.injEq, Prod.mk.injEq, Res.out.injEq] at h
      all_goals
        first
        | exact Option.noConfusion h
        | (rw [← h.1]; simp; done)
        | (rcases isErrorO_true (by assumption) with ⟨mm, hv⟩;
           rw [← h.1, hv]; simp)
    | some pr =>
      have hstep : exec (m + 1) (.stmtT (.letS name (some pr) value)) e σ =
          (match exec m (.exprT value) e σ with
           | some (.out (.panicked msg), σ3) => some (.out (.panicked msg), σ3)
           | some (.out (.undet msg), σ3) => some (.out (.undet msg), σ3)
           | some (.out (.val v), σ3) =>
             if isErrorO v then some (.out (.val v), σ3)
             else
               (match envGet σ3 e name with
                | none =>
                  some (.out (.val (some (.errorO ("unknown identifier: " ++ name)))), σ3)
                | some cls =>
                  match cls with
                  | some (.instanceO iname ienv) =>
                    (match envGet σ3 ienv pr with
                     | none =>
                       some (.out (.val (some (.errorO (pr ++
                         " is not an instance variable of class " ++
                         inspect (.instanceO iname ienv))))), σ3)
                     | some _ => some (.out (.val none), envSet σ3 ienv pr v))
                  | _ =>
                    some (.out (.val (some (.errorO
                      ("Dot assignment allowed only on class Instances.Cannot use dot assignment on "
                        ++ goTypeName cls ++ ": " ++ name)))), σ3))
           | _ => none) := rfl
      rw [hstep] at h
      clear hstep
      repeat' split at h
      all_goals
        try simp only [Option.some.injEq, Prod.mk.injEq, Res.out.injEq] at h
      all_goals
        first
        | exact Option.noConfusion h
        | (rw [← h.1]; simp; done)
        | (rcases isErrorO_true (by assumption) with ⟨mm, hv⟩;
           rw [← h.1, hv]; simp)

/-- C3, counterexample: in
`class A(){ let g = fn(){ 42 } let f = fn(){ g() } } let a = A(); a.f()`
the method `f` DOES resolve its sibling class member `g` lexically — the
program evaluates to `Int 42`, not to the name error the claimed
rewrite would force. -/
theorem C3_counterexample :
    runOutcome
      "class A()\x7b let g = fn()\x7b 42 \x7d let f = fn()\x7b g() \x7d \x7d let a = A(); a.f()" 17 =
      some (.val (some (.intO 42))) ∧
    Object.intO 42 ≠ Object.errorO "identifier not found: g" :=
  ⟨rfl, by simp⟩

/-- C3, amended: `evalClassBlockStatement` only rewrites the outer
pointer of `Function` objects that are the *results* of statements, and
`Eval` of a `let` statement returns Go nil (never a `Function`), so
functions bound by `let` in a class body are never rewritten.  Their
captured environment is the class environment itself, so methods can
resolve sibling class members lexically: the sibling-call program
evaluates to `Int 42`. -/
theorem C3_theorem :
    (runOutcome
      "class A()\x7b let g = fn()\x7b 42 \x7d let f = fn()\x7b g() \x7d \x7d let a = A(); a.f()" 17 =
      some (.val (some (.intO 42)))) ∧
    (∀ (n : Nat) (name : String) (prop : Option String) (value : Expr)
       (e : Nat) (σ : St) (out : Outcome) (σ2 : St),
       exec n (.stmtT (.letS name prop value)) e σ = some (.out out, σ2) →
       ∀ (ps : List String) (bd : List Stmt) (fe : Nat),
         out ≠ .val (some (.functionO ps bd fe))) :=
  ⟨rfl, execLetNeverFunction⟩

/-- C3, witness: the general part of `C3_theorem` applied to the concrete
statement `let z = 1` in the fresh environment. -/
theorem C3_witness :
    Outcome.val none ≠ .val (some (.functionO [] [] 0)) :=
  C3_theorem.2 2 "z" none (.intLit 1) 0 initialState (.val none) _ rfl [] [] 0

/-- Helper for C4: a while whose condition is the literal `true` and
whose body always produces an `Error` never terminates — the body's
`Error` result does not break the loop (for every fuel the fuelled loop
is exhausted). -/
theorem whileTrueNeverReturns : ∀ (F e : Nat) (σ : St) (r : Option Object),
    exec F (.whileLoopT (.boolLit true) [.exprS (.preOp "-" (.boolLit true))] r) e σ =
      none := by
  intro F
  induction F with
  | zero => intro e σ r; rfl
  | succ n ih =>
    intro e σ r
    rcases n with _ | _ | _ | _ | m
    · rfl
    · rfl
    · rfl
    · rfl
    · exact ih e σ (some (.errorO "unknown operator: -BOOLEAN"))

/-- Helper for C4: the same divergence through `Eval` on the while
expression itself. -/
theorem evalWhileTrueDiverges : ∀ (F e : Nat) (σ : St),
    evalExpr F (.whileE (.boolLit true) [.exprS (.preOp "-" (.boolLit true))]) e σ =
      none := by
  intro F e σ
  cases F with
  | zero => rfl
  | succ n =>
    unfold evalExpr
    rw [show exec (n + 1)
        (.exprT (.whileE (.boolLit true) [.exprS (.preOp "-" (.boolLit true))])) e σ =
      exec n (.whileLoopT (.boolLit true) [.exprS (.preOp "-" (.boolLit true))]
        (some .nullO)) e σ from rfl]
    rw [whileTrueNeverReturns]

/-- C4, counterexample: in
`let i = 0; while (i < 2) { let i = i + 1; if (i == 1) { -true } else { -"a" } }`
the first iteration's body yields `Error "unknown operator: -BOOLEAN"`,
yet the loop continues; the program yields the SECOND iteration's
different error `"unknown operator: -STRING"` — so the while expression
did not stop at the first body error. -/
theorem C4_counterexample :
    runOutcome
      "let i = 0; while (i < 2) \x7b let i = i + 1; if (i == 1) \x7b -true \x7d else \x7b -\"a\" \x7d \x7d"
      16 = some (.val (some (.errorO "unknown operator: -STRING"))) ∧
    "unknown operator: -STRING" ≠ "unknown operator: -BOOLEAN" :=
  ⟨rfl, by simp⟩

/-- C4, amended: `evalWhileExpression` checks only the condition for
errors; an `Error` produced by the body does not break the loop — the
loop keeps iterating until the condition is falsy and yields the LAST
body result (here the second iteration's `-STRING` error, not the first
iteration's `-BOOLEAN` error), and `while (true) { -true }` never
terminates at all (it exhausts every fuel). -/
theorem C4_theorem :
    (runOutcome
      "let i = 0; while (i < 2) \x7b let i = i + 1; if (i == 1) \x7b -true \x7d else \x7b -\"a\" \x7d \x7d"
      16 = some (.val (some (.errorO "unknown operator: -STRING")))) ∧
    (∀ (F e : Nat) (σ : St),
      evalExpr F (.whileE (.boolLit true) [.exprS (.preOp "-" (.boolLit true))]) e σ =
        none) :=
  ⟨rfl, evalWhileTrueDiverges⟩

/-- C5, counterexample: the hash literal `{1.5: 1}` with a `Float` key
does NOT evaluate to `Error "unusable as a hash key: FLOAT"` — `Float`
implements `HashKey()` (`object.go:71`), so the literal evaluates to a
`Hash` whose key carries the FLOAT tag and the value 1.5. -/
theorem C5_counterexample :
    runOutcome "\x7b1.5: 1\x7d" 7 =
      some (.val (some (.hashO [(⟨FLOAT_OBJ, ((3 * 2 ^ 1073 : Nat) : Int)⟩,
        .floatO ((3 * 2 ^ 1073 : Nat) : Int), some (.intO 1))]))) ∧
    isErrorO (some (.hashO [(⟨FLOAT_OBJ, ((3 * 2 ^ 1073 : Nat) : Int)⟩,
      .floatO ((3 * 2 ^ 1073 : Nat) : Int), some (.intO 1))])) = false :=
  ⟨rfl, rfl⟩

/-- C5, amended: a value is usable as a hash key exactly when its
variant is Int, Float, Bool or String (the types implementing
`Hashable`); hash-literal keys of those variants are accepted and any
other variant yields `Error "unusable as a hash key: T"` (shown for
ARRAY). -/
theorem C5_theorem :
    (∀ o : Object, (hashKeyOf o).isSome = true ↔
      (objType o = INTEGER_OBJ ∨ objType o = FLOAT_OBJ ∨
       objType o = BOOOLEAN_OBJ ∨ objType o = STRING_OBJ)) ∧
    runOutcome "\x7b1.5: 1\x7d" 7 =
      some (.val (some (.hashO [(⟨FLOAT_OBJ, ((3 * 2 ^ 1073 : Nat) : Int)⟩,
        .floatO ((3 * 2 ^ 1073 : Nat) : Int), some (.intO 1))]))) ∧
    runOutcome "\x7b[1]: 2\x7d" 9 =
      some (.val (some (.errorO "unusable as a hash key: ARRAY"))) ∧
    runOutcome "\x7b1: 1\x7d" 7 =
      some (.val (some (.hashO [(⟨INTEGER_OBJ, intToF64 1⟩, .intO 1, some (.intO 1))]))) ∧
    runOutcome "\x7btrue: 1\x7d" 7 =
      some (.val (some (.hashO [(⟨BOOOLEAN_OBJ, oneF64⟩, .boolO true, some (.intO 1))]))) ∧
    runOutcome "\x7b\"k\": 1\x7d" 7 =
      some (.val (some (.hashO [(⟨STRING_OBJ, intToF64 (fnv1a64 (strBytes "k"))⟩,
        .strO "k", some (.intO 1))]))) := by
  refine ⟨?_, rfl, rfl, rfl, rfl, rfl⟩
  intro o
  cases o <;>
    simp [hashKeyOf, objType, INTEGER_OBJ, FLOAT_OBJ, BOOOLEAN_OBJ,
      STRING_OBJ, NULL_OBJ, RETURN_VALUE_OBJ, FUNCTION_OBJ, ERROR_OBJ,
      BUILTIN_OBJ, ARRAY_OBJ, HASH_OBJ, CLASS_OBJ, CLASSINSTANCE_OBJ,
      MODULE_OBJ]

/-- C6, counterexample: the `HashKey` payload of an `Integer` is the
`float64` conversion of its value, not a 64-bit bitcast — the two
DISTINCT integers 2^53 and 2^53 + 1 produce the SAME `HashKey`. -/
theorem C6_counterexample :
    hashKeyOf (.intO 9007199254740992) = hashKeyOf (.intO 9007199254740993) ∧
    (9007199254740992 : Int) ≠ 9007199254740993 :=
  ⟨rfl, by decide⟩

/-- C6, amended: a `HashKey` is a type tag plus a `float64` payload; for
an `Int` key the payload is the `float64` numeric conversion of the
integer — exact (hence collision-free) only for `|i| ≤ 2^53`, with
collisions beyond (2^53 and 2^53+1 collide); for `Bool` it is 1.0/0.0;
for a `String` it is the `float64` conversion of the 64-bit FNV-1a hash
of its bytes (shown for "a", whose 64-bit hash 12638187200555641996 is
itself rounded). -/
theorem C6_theorem :
    (∀ i : Int, i.natAbs ≤ 2 ^ 53 →
      hashKeyOf (.intO i) = some ⟨INTEGER_OBJ, i * ((2 ^ 1074 : Nat) : Int)⟩) ∧
    hashKeyOf (.intO 9007199254740992) = hashKeyOf (.intO 9007199254740993) ∧
    hashKeyOf (.boolO true) = some ⟨BOOOLEAN_OBJ, oneF64⟩ ∧
    hashKeyOf (.boolO false) = some ⟨BOOOLEAN_OBJ, 0⟩ ∧
    fnv1a64 (strBytes "a") = 12638187200555641996 ∧
    hashKeyOf (.strO "a") =
      some ⟨STRING_OBJ, ((12638187200555642880 * 2 ^ 1074 : Nat) : Int)⟩ := by
  refine ⟨?_, rfl, rfl, rfl, rfl, rfl⟩
  intro i h
  norm_num at h
  simp [hashKeyOf, intToF64, roundIntToF64, h]

/-- C6, witness: the exactness part of `C6_theorem` applied at the
integer 5. -/
theorem C6_witness :
    hashKeyOf (.intO 5) = some ⟨INTEGER_OBJ, 5 * ((2 ^ 1074 : Nat) : Int)⟩ :=
  C6_theorem.1 5 (by norm_num)

/-- C7: evaluating `true == 1.0` (Boolean on the left, Float on the
right) PANICS instead of comparing identity: the malformed mixed-type
guard (`right.Type()` tested twice) routes the pair into
`evalFloatIntegerInfixExpression`, whose type assertion of the Boolean
operand as `*object.Float` fails.  The reverse orientation
`1.0 == true` reaches the identity comparison and yields `false`. -/
theorem C7_theorem :
    runOutcome "true == 1.0" 6 =
      some (.panicked "interface conversion: object.Object is not *object.Float") ∧
    evalInfixOp "==" (some (.boolO true)) (some (.floatO oneF64)) =
      .panicked "interface conversion: object.Object is not *object.Float" ∧
    evalInfixOp "==" (some (.floatO oneF64)) (some (.boolO true)) =
      .val (some (.boolO false)) :=
  ⟨rfl, rfl, rfl⟩

/-- C8, counterexample: `a <= b` does NOT parse into a single infix
comparison: the parser has no parselet for `<=`, so the source parses as
three statements (the middle one with a nil expression) and reports the
error `no prefix parse function for <= found`. -/
theorem C8_counterexample :
    (parseSource "a <= b").2 = ["no prefix parse function for <= found"] ∧
    (parseSource "a <= b").1 = [.exprS (.ident "a"), .exprS .nilE, .exprS (.ident "b")] ∧
    ["no prefix parse function for <= found"] ≠ ([] : List String) :=
  ⟨rfl, rfl, by simp⟩

/-- C8, amended: the lexer does produce `<=`/`>=` tokens, but the
parser's `precedences` map has no entry for them (they default to
LOWEST, not LESSGREATER) and no infix parselet is registered for them,
so `a <= b` (and `a >= b`) fail to parse with
`no prefix parse function for K found`. -/
theorem C8_theorem :
    precedences TokenType.LTE = none ∧
    precedences TokenType.GTE = none ∧
    hasInfParselet TokenType.LTE = false ∧
    hasInfParselet TokenType.GTE = false ∧
    (lexAll "a <= b").map Token.type =
      [TokenType.IDENT, TokenType.LTE, TokenType.IDENT, TokenType.EOF] ∧
    (parseSource "a <= b").2 = ["no prefix parse function for <= found"] ∧
    (parseSource "a >= b").2 = ["no prefix parse function for >= found"] :=
  ⟨rfl, rfl, rfl, rfl, rfl, rfl, rfl⟩

/-- C9: identifier evaluation consults the built-in table before the
environment chain — a built-in name evaluates to the built-in even when
a user `let` has bound it (so `let len = 0; len("abcd")` still calls the
built-in and yields 4, and `let puts = 5; puts` yields the built-in) —
and a name found in neither yields `Error "identifier not found: N"`. -/
theorem C9_theorem :
    (∀ (name : String) (e : Nat) (σ : St), builtinsHas name = true →
      evalIdentF name e σ = .val (some (.builtinO name))) ∧
    (∀ (name : String) (e : Nat) (σ : St), builtinsHas name = false →
      envGet σ e name = none →
      evalIdentF name e σ = .val (some (.errorO ("identifier not found: " ++ name)))) ∧
    runOutcome "let puts = 5; puts" 6 = some (.val (some (.builtinO "puts"))) ∧
    runOutcome "let len = 0; len(\"abcd\")" 8 = some (.val (some (.intO 4))) ∧
    runOutcome "nosuch" 5 =
      some (.val (some (.errorO "identifier not found: nosuch"))) := by
  refine ⟨?_, ?_, rfl, rfl, rfl⟩
  · intro name e σ h
    simp [evalIdentF, h]
  · intro name e σ h h2
    simp [evalIdentF, h, h2]

/-- C9, witness: the built-ins-first part of `C9_theorem` at `puts` in
the fresh environment. -/
theorem C9_witness :
    evalIdentF "puts" 0 initialState = .val (some (.builtinO "puts")) :=
  C9_theorem.1 "puts" 0 initialState rfl

/-- Helper for C10: `applyFunction` on a `Class` value always returns an
instance carrying the very environment reference of the class — never a
copy. -/
theorem execApplyClassEnv : ∀ (n : Nat) (cname : String) (cenv : Nat)
    (args : List (Option Object)) (e : Nat) (σ : St) (v : Option Object) (σ2 : St),
    exec n (.applyFnT (some (.classO cname cenv)) args) e σ = some (.out (.val v), σ2) →
    v = some (.instanceO cname cenv) := by
  intro n cname cenv args e σ v σ2 h
  cases n with
  | zero => simp [exec] at h
  | succ m =>
    have hstep : exec (m + 1) (.applyFnT (some (.classO cname cenv)) args) e σ =
        (match envGet σ cenv "__New__" with
         | some (some nv) =>
           if objType nv = FUNCTION_OBJ then
             (match exec m (.applyMethT (some nv) (.instanceO cname cenv) args) e σ with
              | some (.out (.panicked msg), σ3) => some (.out (.panicked msg), σ3)
              | some (.out (.undet msg), σ3) => some (.out (.undet msg), σ3)
              | some (.out (.val _), σ3) =>
                some (.out (.val (some (.instanceO cname cenv))), σ3)
              | _ => none)
           else some (.out (.val (some (.instanceO cname cenv))), σ)
         | some none => some (.out (.panicked "nil pointer dereference in Type()"), σ)
         | none => some (.out (.val (some (.instanceO cname cenv))), σ)) := rfl
    rw [hstep] at h
    repeat' split at h
    all_goals simp_all

/-- C10: every instance produced by calling a class shares the class's
environment object itself.  Generally, whenever `applyFunction` applied
to a `Class` value yields a value, that value is an instance holding the
class's own environment reference.  Concretely, in
`class A(){ let x = 0 } let a = A(); let b = A(); ...`, `a`, `b` and `A`
all reference environment 1, a `setattr(a, "x", 5)` (or a dotted
`let a.x = 5`) is immediately visible through `b.x` (both programs yield
`Int 5`), and afterwards the class environment itself holds `x = 5`. -/
theorem C10_theorem :
    (∀ (fuel : Nat) (cname : String) (cenv : Nat)
       (args : List (Option Object)) (σ σ2 : St) (v : Option Object),
       applyFunctionF fuel (some (.classO cname cenv)) args σ = some (.val v, σ2) →
       v = some (.instanceO cname cenv)) ∧
    runOutcome
      "class A()\x7b let x = 0 \x7d let a = A(); let b = A(); setattr(a, \"x\", 5); b.x" 12 =
      some (.val (some (.intO 5))) ∧
    runOutcome
      "class A()\x7b let x = 0 \x7d let a = A(); let b = A(); let a.x = 5; b.x" 12 =
      some (.val (some (.intO 5))) ∧
    (runProgram
      "class A()\x7b let x = 0 \x7d let a = A(); let b = A(); setattr(a, \"x\", 5); b.x" 12).map
      (fun p => (envGet p.2 0 "a", envGet p.2 0 "b", envGet p.2 0 "A")) =
      some (some (some (.instanceO "A" 1)), some (some (.instanceO "A" 1)),
        some (some (.classO "A" 1))) ∧
    (runProgram
      "class A()\x7b let x = 0 \x7d let a = A(); let b = A(); setattr(a, \"x\", 5); b.x" 12).map
      (fun p => envGet p.2 1 "x") = some (some (some (.intO 5))) := by
  refine ⟨?_, rfl, rfl, rfl, rfl⟩
  intro fuel cname cenv args σ σ2 v h
  unfold applyFunctionF at h
  rcases he : exec fuel (.applyFnT (some (.classO cname cenv)) args) 0 σ
    with _ | ⟨r, σ3⟩ <;> rw [he] at h
  · simp at h
  · rcases r with o | l | p
    · simp at h
      obtain ⟨h1, h2⟩ := h
      subst h1; subst h2
      exact execApplyClassEnv fuel cname cenv args 0 σ v σ3 he
    · simp at h
    · simp at h

/-- C10, witness: the general part of `C10_theorem` applied to a class
with no `__New__`, called in the fresh state. -/
theorem C10_witness :
    (some (Object.instanceO "B" 0) : Option Object) = some (.instanceO "B" 0) :=
  C10_theorem.1 5 "B" 0 [] initialState initialState (some (.instanceO "B" 0)) rfl

end Monkey
